import Mathlib

/-!
Verification development for the WhatsApp inventory webhook
(`servidor_webhook.py`).  The Python code is shallowly embedded: strings
are `List Char`, the pandas `DataFrame` is a structure of column names and
rows of cells, machine floats are modelled as exact rationals with `none`
standing for IEEE NaN (every concrete number exercised below is a small
integer, on which Python float arithmetic is exact), and the WhatsApp
transport is an oracle `Nat → Bool` giving the result of the i-th send
attempt.  Definitions keep the source's Spanish names.
-/

set_option maxRecDepth 4000

namespace Webhook

/-- Shorthand turning a Lean string literal into the `List Char`
representation used throughout the embedding. -/
def lc (s : String) : List Char := s.toList

/-- ASCII whitespace recognised by Python's `str.strip` / `str.split`
(the inputs modelled here are ASCII; exotic Unicode whitespace is not
exercised by the source's data). -/
def esEspacio (c : Char) : Bool :=
  c = ' ' || c = '\t' || c = '\n' || c = '\r' || c = '\x0b' || c = '\x0c'

/-- Python `str.strip()`: drop leading and trailing whitespace. -/
def pyStrip (s : List Char) : List Char :=
  ((s.dropWhile esEspacio).reverse.dropWhile esEspacio).reverse

/-- ASCII lowering of one character, as Python `str.lower()` acts on the
ASCII range (the command tokens and keyword lists compared in the source
are pure ASCII). -/
def minusculaChar (c : Char) : Char :=
  if 'A' ≤ c ∧ c ≤ 'Z' then Char.ofNat (c.toNat + 32) else c

/-- Python `str.lower()` on the modelled character range. -/
def pyLower (s : List Char) : List Char := s.map minusculaChar

/-- Does `s` start with `pre`?  (Helper for the substring test behind
Python's `in` operator.) -/
def empiezaCon : List Char → List Char → Bool
  | _, [] => true
  | [], _ :: _ => false
  | c :: cs, d :: ds => c = d && empiezaCon cs ds

/-- Python's `sub in s` substring containment test. -/
def contiene : List Char → List Char → Bool
  | [], sub => sub.isEmpty
  | c :: rest, sub => empiezaCon (c :: rest) sub || contiene rest sub

/-- Python `s.split('\n')`: split at every newline, keeping empty pieces. -/
def separarLineas : List Char → List (List Char)
  | [] => [[]]
  | c :: rest =>
    if c = '\n' then [] :: separarLineas rest
    else
      match separarLineas rest with
      | [] => [[c]]
      | l :: ls => (c :: l) :: ls

/-- Inverse of `separarLineas`: re-join pieces with single newlines
(Python `'\n'.join`). -/
def unirLineas : List (List Char) → List Char
  | [] => []
  | [x] => x
  | x :: y :: ys => x ++ '\n' :: unirLineas (y :: ys)

/-- Python `s.split()` (no separator): split on whitespace runs, dropping
empty pieces.  Fuel-driven so that the kernel can evaluate it; the fuel
`s.length` always suffices because every step consumes a character. -/
def separarPalabrasAux : Nat → List Char → List (List Char)
  | 0, _ => []
  | _ + 1, [] => []
  | n + 1, c :: rest =>
    if esEspacio c then separarPalabrasAux n rest
    else (c :: rest.takeWhile (fun d => !esEspacio d)) ::
      separarPalabrasAux n (rest.dropWhile (fun d => !esEspacio d))

/-- Python `s.split()` with no argument. -/
def separarPalabras (s : List Char) : List (List Char) :=
  separarPalabrasAux s.length s

/-- Python `s.split(sep)` for a fixed non-empty separator, fuel-driven for
kernel evaluability (each step consumes at least one character). -/
def separarPorAux (sep : List Char) : Nat → List Char → List (List Char)
  | 0, s => [s]
  | _ + 1, [] => [[]]
  | n + 1, c :: rest =>
    if empiezaCon (c :: rest) sep then
      [] :: separarPorAux sep n (List.drop sep.length (c :: rest))
    else
      match separarPorAux sep n rest with
      | [] => [[c]]
      | l :: ls => (c :: l) :: ls

/-- Python `s.split(sep)` for a non-empty separator string. -/
def separarPor (sep s : List Char) : List (List Char) :=
  separarPorAux sep (s.length + 1) s

/-- Lexicographic `≤` on strings by code point, Python's string order. -/
def leLex : List Char → List Char → Bool
  | [], _ => true
  | _ :: _, [] => false
  | a :: as, b :: bs => if a = b then leLex as bs else decide (a < b)

/-- Decimal digits of a natural number (most significant first). -/
def digitosNat (n : Nat) : List Char := (Nat.repr n).toList

/-- Decimal rendering of an integer, Python `str(int)`. -/
def digitosInt (i : Int) : List Char :=
  if i < 0 then '-' :: digitosNat i.natAbs else digitosNat i.natAbs

/-- Group a reversed digit list in threes (helper for the `,` format flag). -/
def gruposDeTres : List Char → List (List Char)
  | a :: b :: c :: d :: rest => [a, b, c] :: gruposDeTres (d :: rest)
  | [] => []
  | l => [l]

/-- Integer part rendered with thousands separators, as `{:,}` groups it. -/
def conMiles (n : Nat) : List Char :=
  (List.intercalate [','] (gruposDeTres (digitosNat n).reverse)).reverse

/-- Exact rational value: the model of a finite Python float.  The
denominator is positive for every fraction the embedding constructs, and
every number the source manipulates in the theorems below is exactly
representable as a small fraction, on which float arithmetic is exact. -/
structure Fraccion where
  num : Int
  den : Int
deriving DecidableEq

instance (n : Nat) : OfNat Fraccion n := ⟨⟨(n : Int), 1⟩⟩

/-- Float addition on the exact model. -/
def Fraccion.suma (a b : Fraccion) : Fraccion :=
  ⟨a.num * b.den + b.num * a.den, a.den * b.den⟩

/-- Float multiplication on the exact model. -/
def Fraccion.producto (a b : Fraccion) : Fraccion :=
  ⟨a.num * b.num, a.den * b.den⟩

/-- Division of a float by a positive machine integer. -/
def Fraccion.entreNat (a : Fraccion) (n : Nat) : Fraccion :=
  ⟨a.num, a.den * (n : Int)⟩

/-- Round-half-even of `f.num / f.den` (denominator positive): the
rounding Python's fixed-point float formatting performs. -/
def redondeoBanquero (f : Fraccion) : Int :=
  let q := f.num.fdiv f.den
  let r := f.num - q * f.den
  if 2 * r < f.den then q
  else if f.den < 2 * r then q + 1
  else if q % 2 = 0 then q else q + 1

/-- Left-pad a digit string with zeros to width `d`. -/
def rellenarCeros (d : Nat) (ds : List Char) : List Char :=
  List.replicate (d - ds.length) '0' ++ ds

/-- Python `{x:.df}` fixed-point formatting of a finite float value. -/
def fmtFijo (d : Nat) (f : Fraccion) : List Char :=
  let esc := redondeoBanquero ⟨f.num * ((10 : Int) ^ d), f.den⟩
  let a := esc.natAbs
  (if esc < 0 then ['-'] else []) ++ digitosNat (a / 10 ^ d) ++
    (if d = 0 then [] else '.' :: rellenarCeros d (digitosNat (a % 10 ^ d)))

/-- Python `{x:,.df}` formatting: like `fmtFijo` but with the integer part
grouped in thousands. -/
def fmtComa (d : Nat) (f : Fraccion) : List Char :=
  let esc := redondeoBanquero ⟨f.num * ((10 : Int) ^ d), f.den⟩
  let a := esc.natAbs
  (if esc < 0 then ['-'] else []) ++ conMiles (a / 10 ^ d) ++
    (if d = 0 then [] else '.' :: rellenarCeros d (digitosNat (a % 10 ^ d)))

/-- Formatting of a possibly-NaN float (`none` = NaN): Python renders NaN
as the literal text `nan` under every fixed-point format. -/
def fmtOpcional (d : Nat) : Option Fraccion → List Char
  | none => lc "nan"
  | some f => fmtFijo d f

/-- A cell of the loaded spreadsheet: missing (`NaN`), textual, or numeric.
Numeric cells are modelled as exact fractions. -/
inductive Celda where
  | na : Celda
  | texto : List Char → Celda
  | numero : Fraccion → Celda
deriving DecidableEq

/-- The in-memory dataset `df_inventario`: column names in stored order and
rows of cells aligned with the columns. -/
structure DataFrame where
  cols : List (List Char)
  filas : List (List Celda)

/-- All-digit string to its value (helper for numeric coercion). -/
def valorDigitos (ds : List Char) : Option Nat :=
  if ds ≠ [] ∧ ds.all Char.isDigit then
    some (ds.foldl (fun a c => a * 10 + (c.toNat - 48)) 0)
  else none

/-- Parse a decimal numeral (optional sign, optional fraction part), the
fragment of `pd.to_numeric`'s string coercion the dataset exercises;
anything else is not a number. -/
def analizarNumero (s : List Char) : Option Fraccion :=
  let cuerpo : List Char → Option Fraccion := fun t =>
    match separarPor ['.'] t with
    | [ent] => (valorDigitos ent).map (fun n => ⟨(n : Int), 1⟩)
    | [ent, frac] =>
      if ent ≠ [] ∨ frac ≠ [] then
        match valorDigitos ('0' :: ent), valorDigitos ('0' :: frac) with
        | some n, some f =>
          some ⟨(n : Int) * (10 : Int) ^ frac.length + (f : Int), (10 : Int) ^ frac.length⟩
        | _, _ => none
      else none
    | _ => none
  match s with
  | '-' :: rest => (cuerpo rest).map (fun f => ⟨-f.num, f.den⟩)
  | _ => cuerpo s

/-- `pd.to_numeric(cell, errors='coerce')`: numbers pass through, numeric
text parses, everything else coerces to NaN (`none`). -/
def coercionNumerica : Celda → Option Fraccion
  | Celda.na => none
  | Celda.numero f => some f
  | Celda.texto s => analizarNumero s

/-- Smallest exponent making `f * 10^d` integral (for rendering). -/
def expDecimal (f : Fraccion) : Nat :=
  ((List.range 18).find? (fun d => (f.num * (10 : Int) ^ d) % f.den = 0)).getD 17

/-- Python `str(cell)` as `astype(str)` / f-string interpolation sees it:
NaN prints `nan`; integral numeric cells are modelled as Python ints.
No theorem below depends on the textual form of non-integral numbers. -/
def strCelda : Celda → List Char
  | Celda.na => lc "nan"
  | Celda.texto s => s
  | Celda.numero f =>
    if f.den = 1 then digitosInt f.num else fmtFijo (expDecimal f) f

/-- Index of a column name in the stored order. -/
def indiceCol (cols : List (List Char)) (c : List Char) : Option Nat :=
  cols.findIdx? (fun x => x = c)

/-- `df[c]`: the stored column as a list of cells (rows are aligned with
the column list; a missing position reads as NaN). -/
def columna (df : DataFrame) (c : List Char) : List Celda :=
  match indiceCol df.cols c with
  | none => []
  | some i => df.filas.map (fun fila => fila.getD i Celda.na)

/-- Does a column header match the candidate-fragment list for a role?
Source test: `any(cand.lower() in col.lower() for cand in candidatas)`. -/
def coincideCol (candidatas : List (List Char)) (col : List Char) : Bool :=
  candidatas.any (fun cand => contiene (pyLower col) (pyLower cand))

/-- The `for col in df.columns: if ...: found = col; break` pattern used by
`obtener_todas_las_categorias` and `calcular_stock_total`: the FIRST
matching column wins. -/
def buscarConBreak (p : List Char → Bool) : List (List Char) → Option (List Char)
  | [] => none
  | c :: rest => if p c then some c else buscarConBreak p rest

/-- The break-less loop of `calcular_valor_inventario` (lines 398-402) and
`buscar_productos_especificos` (lines 447-451): the assignment keeps being
overwritten, so the LAST matching column wins. -/
def buscarSinBreak (p : List Char → Bool) (cols : List (List Char)) : Option (List Char) :=
  cols.foldl (fun acc c => if p c then some c else acc) none

/-- Sum of the valid (non-NaN) entries, pandas `.sum()` with its default
`skipna`; an all-NaN column sums to 0. -/
def sumaValidos : List (Option Fraccion) → Fraccion
  | [] => 0
  | some f :: rest => f.suma (sumaValidos rest)
  | none :: rest => sumaValidos rest

/-- Count of valid entries, pandas `.notna().sum()`. -/
def conteoValidos : List (Option Fraccion) → Nat
  | [] => 0
  | some _ :: rest => conteoValidos rest + 1
  | none :: rest => conteoValidos rest

/-- numpy float division with an integer denominator: dividing by a zero
count yields a non-finite value (here 0/0 = NaN), not an exception. -/
def divNumpy (a : Fraccion) (n : Nat) : Option Fraccion :=
  if n = 0 then none else some (a.entreNat n)

/-- numpy elementwise product of two possibly-NaN values (`precios *
stocks`): NaN propagates. -/
def productoOpcional : Option Fraccion → Option Fraccion → Option Fraccion
  | some a, some b => some (a.producto b)
  | _, _ => none

/-- Candidate header fragments for the category role (line 324). -/
def columnas_categoria : List (List Char) :=
  [lc "categoria", lc "categoría", lc "category", lc "tipo_categoria", lc "tipo"]

/-- Candidate header fragments for the stock role in `calcular_stock_total`
(line 358). -/
def columnas_stock : List (List Char) :=
  [lc "stock_actual", lc "stock", lc "cantidad", lc "existencias", lc "disponible"]

/-- Candidate header fragments for the price role (lines 392 and 448). -/
def columnas_precio : List (List Char) :=
  [lc "precio", lc "price", lc "valor", lc "costo"]

/-- Stock candidates used by `calcular_valor_inventario` (line 393); note
the list lacks `disponible`. -/
def columnas_stock_valor : List (List Char) :=
  [lc "stock_actual", lc "stock", lc "cantidad", lc "existencias"]

/-- Stock candidates used by `buscar_productos_especificos` (line 450). -/
def columnas_stock_busqueda : List (List Char) :=
  [lc "stock", lc "cantidad", lc "existencias"]

/-- pandas `.unique()`: distinct values keeping first occurrences. -/
def unicosAux : List Celda → List Celda → List Celda
  | _, [] => []
  | vistos, c :: rest =>
    if c ∈ vistos then unicosAux vistos rest else c :: unicosAux (c :: vistos) rest

/-- pandas `.unique()` over a cell list. -/
def unicos (l : List Celda) : List Celda := unicosAux [] l

/-- The sorting relation for Python `sorted` over strings. -/
def relLex (a b : List Char) : Prop := leLex a b = true

instance : DecidableRel relLex := fun a b => inferInstanceAs (Decidable (leLex a b = true))

/-- Numbered rendering `f"{i}. {categoria}\n"`, enumerating from `i`. -/
def renderNumerada (i : Nat) : List (List Char) → List Char
  | [] => []
  | c :: rest => digitosNat i ++ lc ". " ++ c ++ '\n' :: renderNumerada (i + 1) rest

/-- The comprehension filter of line 337: keep cells whose string form is
non-empty after stripping and does not read `nan` when lowercased. -/
def filtroCategoria (c : Celda) : Bool :=
  decide (pyStrip (strCelda c) ≠ []) && decide (pyLower (strCelda c) ≠ lc "nan")

/-- The category list the source builds on lines 336-337: `dropna`, then
`unique`, then filter and STRIP (the strip happens after `unique`). -/
def listaCategorias (df : DataFrame) (col : List Char) : List (List Char) :=
  (((unicos ((columna df col).filter (fun c => decide (c ≠ Celda.na)))).filter
    filtroCategoria).map (fun c => pyStrip (strCelda c)))

/-- `obtener_todas_las_categorias` (lines 316-348): resolve the category
column with the break-loop, list the distinct values sorted, and append
the total count; explicit messages for the missing-data cases. -/
def obtener_todas_las_categorias : Option DataFrame → List Char
  | none => lc "No hay inventario disponible"
  | some df =>
    match buscarConBreak (coincideCol columnas_categoria) df.cols with
    | none => lc "No se encontró columna de categoría en el inventario"
    | some col =>
      let categorias := listaCategorias df col
      lc "📋 **TODAS LAS CATEGORÍAS DISPONIBLES:**\n\n" ++
        renderNumerada 1 (List.insertionSort relLex categorias) ++
        lc "\n**Total de categorías: " ++ digitosNat categorias.length ++ lc "**"

/-- `calcular_stock_total` (lines 350-382): resolve the stock column with
the break-loop, coerce to numbers, and format total, count and average.
The average `stock_total/productos_con_stock` has no zero guard in the
source; with a zero count numpy produces NaN, rendered as `nan`. -/
def calcular_stock_total : Option DataFrame → List Char
  | none => lc "No hay inventario disponible"
  | some df =>
    match buscarConBreak (coincideCol columnas_stock) df.cols with
    | none => lc "No se encontró columna de stock en el inventario"
    | some col =>
      let stock_numerico := (columna df col).map coercionNumerica
      let stock_total := sumaValidos stock_numerico
      let productos_con_stock := conteoValidos stock_numerico
      lc "📊 **RESUMEN DE STOCK:**\n\n• Stock total: **" ++ fmtComa 0 stock_total ++
        lc "** unidades\n• Productos con stock registrado: **" ++
        digitosNat productos_con_stock ++
        lc "**\n• Promedio por producto: **" ++
        fmtOpcional 1 (divNumpy stock_total productos_con_stock) ++ lc "** unidades"

/-- `calcular_valor_inventario` (lines 384-425): price and stock columns
are resolved by the break-less loop of lines 398-402, so the LAST matching
column in stored order wins; per-record value is price×stock with NaN
propagation, and the average again has no zero guard. -/
def calcular_valor_inventario : Option DataFrame → List Char
  | none => lc "No hay inventario disponible"
  | some df =>
    match buscarSinBreak (coincideCol columnas_precio) df.cols with
    | none => lc "No se encontró columna de precio en el inventario"
    | some col_precio =>
      match buscarSinBreak (coincideCol columnas_stock_valor) df.cols with
      | none => lc "No se encontró columna de stock en el inventario"
      | some col_stock =>
        let precios := (columna df col_precio).map coercionNumerica
        let stocks := (columna df col_stock).map coercionNumerica
        let valores_producto := List.zipWith productoOpcional precios stocks
        let valor_total := sumaValidos valores_producto
        let productos_valorados := conteoValidos valores_producto
        lc "💰 **VALOR DEL INVENTARIO:**\n\n• Valor total: **$" ++
          fmtComa 2 valor_total ++
          lc "**\n• Productos valorados: **" ++ digitosNat productos_valorados ++
          lc "**\n• Valor promedio por producto: **$" ++
          fmtOpcional 2 (divNumpy valor_total productos_valorados) ++ lc "**"

/-- Display-relevant header fragments of line 456. -/
def campos_mostrar : List (List Char) :=
  [lc "marca", lc "categoria", lc "tipo", lc "stock", lc "precio",
   lc "caracteristica", lc "observaciones"]

/-- Row mask of lines 435-437: a row matches when any cell's string form
contains any search term, case-insensitively.  (The source joins the terms
into a regex alternation; for the metacharacter-free terms the dispatcher
extracts this equals per-term containment.) -/
def coincideFila (terminos : List (List Char)) (fila : List Celda) : Bool :=
  fila.any (fun c => terminos.any (fun t => contiene (pyLower (strCelda c)) (pyLower t)))

/-- ASCII uppercase of one character. -/
def mayusculaChar (c : Char) : Char :=
  if 'a' ≤ c ∧ c ≤ 'z' then Char.ofNat (c.toNat - 32) else c

/-- ASCII letter test (word boundaries for `str.title()`). -/
def esAlfa (c : Char) : Bool := ('a' ≤ c && c ≤ 'z') || ('A' ≤ c && c ≤ 'Z')

/-- Python `str.title()` on the ASCII range: capitalize the first letter
of each letter run, lowercase the rest. -/
def tituloAux : Bool → List Char → List Char
  | _, [] => []
  | prevAlfa, c :: rest =>
    (if esAlfa c then (if prevAlfa then minusculaChar c else mayusculaChar c) else c) ::
      tituloAux (esAlfa c) rest

/-- Python `col.replace('_', ' ').title()`, the field-name prettifier. -/
def nombreCampo (s : List Char) : List Char :=
  tituloAux false (s.map (fun c => if c = '_' then ' ' else c))

/-- Cell of a row under a named column. -/
def celdaEn (df : DataFrame) (fila : List Celda) (c : List Char) : Celda :=
  match indiceCol df.cols c with
  | none => Celda.na
  | some i => fila.getD i Celda.na

/-- Field rendering of lines 462-468: walk all columns in order, show the
display-relevant ones whose stripped value is non-empty and not `nan`. -/
def renderCamposAux (fila : List Celda) : Nat → List (List Char) → List Char
  | _, [] => []
  | i, col :: rest =>
    (if coincideCol campos_mostrar col then
       let valor := pyStrip (strCelda (fila.getD i Celda.na))
       if valor ≠ [] ∧ pyLower valor ≠ lc "nan" then
         lc "  " ++ nombreCampo col ++ lc ": " ++ valor ++ ['\n']
       else []
     else []) ++ renderCamposAux fila (i + 1) rest

/-- `buscar_productos_especificos` (lines 427-486): filter rows by the
term mask, render each match under its original 0-based row index plus
one, and append stock/value totals when both columns resolve (again by
the break-less last-match loop of lines 447-451). -/
def buscar_productos_especificos : Option DataFrame → List (List Char) → List Char
  | none, _ => lc "No hay inventario disponible"
  | some df, terminos =>
    let encontradas := ((List.range df.filas.length).zip df.filas).filter
      (fun p => coincideFila terminos p.2)
    if encontradas.length = 0 then
      lc "No se encontraron productos con: " ++ List.intercalate (lc ", ") terminos
    else
      let col_precio := buscarSinBreak (coincideCol columnas_precio) df.cols
      let col_stock := buscarSinBreak (coincideCol columnas_stock_busqueda) df.cols
      lc "🔍 **PRODUCTOS ENCONTRADOS: " ++ digitosNat encontradas.length ++ lc "**\n\n" ++
        (encontradas.map (fun p =>
          lc "**Producto " ++ digitosNat (p.1 + 1) ++ lc ":**\n" ++
            renderCamposAux p.2 0 df.cols ++ ['\n'])).flatten ++
        (match col_precio, col_stock with
         | some cp, some cs =>
           let precios := encontradas.map (fun p => coercionNumerica (celdaEn df p.2 cp))
           let stocks := encontradas.map (fun p => coercionNumerica (celdaEn df p.2 cs))
           lc "📊 **TOTALES:**\n• Stock total: " ++ fmtComa 0 (sumaValidos stocks) ++
             lc " unidades\n• Valor total: $" ++
             fmtComa 2 (sumaValidos (List.zipWith productoOpcional precios stocks)) ++
             lc "\n"
         | _, _ => [])

/-- Word loop of `dividir_mensaje` (lines 573-586), entered when a single
line overflows an empty current chunk: accumulate whitespace-split words
with a trailing space each; an overlong word is cut at the limit and the
remainder carried forward.  Returns the chunks emitted so far and the
accumulated `linea_temp`. -/
def dividirPalabras (limite : Nat) :
    List (List Char) → List (List Char) → List Char → List (List Char) × List Char
  | [], partes, linea_temp => (partes, linea_temp)
  | palabra :: rest, partes, linea_temp =>
    if limite < (linea_temp ++ palabra ++ [' ']).length then
      if linea_temp ≠ [] then
        dividirPalabras limite rest (partes ++ [pyStrip linea_temp]) (palabra ++ [' '])
      else
        dividirPalabras limite rest (partes ++ [palabra.take limite])
          (palabra.drop limite ++ [' '])
    else dividirPalabras limite rest partes (linea_temp ++ palabra ++ [' '])

/-- Line loop of `dividir_mensaje` (lines 562-593): accumulate lines with
their newlines; on overflow close the stripped current chunk, or fall to
the word loop when the current chunk is empty; the stripped final chunk is
appended when non-blank. -/
def dividirLineas (limite : Nat) :
    List (List Char) → List (List Char) → List Char → List (List Char)
  | [], partes, parte_actual =>
    if pyStrip parte_actual ≠ [] then partes ++ [pyStrip parte_actual] else partes
  | linea :: rest, partes, parte_actual =>
    if limite < (parte_actual ++ linea ++ ['\n']).length then
      if parte_actual ≠ [] then
        dividirLineas limite rest (partes ++ [pyStrip parte_actual]) (linea ++ ['\n'])
      else
        let r := dividirPalabras limite (separarPalabras linea) partes []
        dividirLineas limite rest r.1 (r.2 ++ ['\n'])
    else dividirLineas limite rest partes (parte_actual ++ linea ++ ['\n'])

/-- Product loop of `dividir_por_productos` (lines 607-626): accumulate
whole `PRODUCTO `-prefixed records; on overflow close the stripped chunk
and restart with a continuation header, or hard-cut an overlong record. -/
def dividirProductos (limite : Nat) :
    List (List Char) → List (List Char) → List Char → List (List Char)
  | [], partes, parte_actual =>
    if pyStrip parte_actual ≠ [] then partes ++ [pyStrip parte_actual] else partes
  | producto :: rest, partes, parte_actual =>
    let producto_completo := lc "PRODUCTO " ++ producto
    if limite < (parte_actual ++ producto_completo).length then
      if pyStrip parte_actual ≠ [] then
        dividirProductos limite rest (partes ++ [pyStrip parte_actual])
          (lc "=== CONTINUACIÓN INVENTARIO ===\n\n" ++ producto_completo)
      else
        dividirProductos limite rest (partes ++ [producto_completo.take limite])
          (producto_completo.drop limite)
    else dividirProductos limite rest partes (parte_actual ++ producto_completo)

/-- `dividir_por_productos` (lines 596-627): split on the record marker,
keep the pre-marker header in the first chunk, and run the product loop. -/
def dividir_por_productos (mensaje : List Char) (limite : Nat) : List (List Char) :=
  let productos := separarPor (lc "PRODUCTO ") mensaje
  dividirProductos limite productos.tail [] (productos.headD [])

/-- `dividir_mensaje` (lines 553-594): record-aware splitting when the
marker occurs, otherwise the line loop. -/
def dividir_mensaje (mensaje : List Char) (limite : Nat) : List (List Char) :=
  if contiene mensaje (lc "PRODUCTO ") then dividir_por_productos mensaje limite
  else dividirLineas limite (separarLineas mensaje) [] []

/-- The WhatsApp transport size limit of line 495. -/
def LIMITE_WHATSAPP : Nat := 4000

/-- The `Parte i/N` continuation label of line 516. -/
def etiquetaParte (i total : Nat) : List Char :=
  lc "📄 Parte " ++ digitosNat i ++ ['/'] ++ digitosNat total ++ lc ":\n\n"

/-- Delivery loop of lines 510-528 over the chunk list.  `t i` is the
transport's success answer for the i-th attempted send.  Returns overall
success and the exact payloads attempted, in order: the loop stops at the
first failed send and never retries. -/
def enviarPartes (t : Nat → Bool) (total : Nat) : Nat → List (List Char) → Bool × List (List Char)
  | _, [] => (true, [])
  | i, parte :: rest =>
    let mensaje_enviar := if i = 0 then parte else etiquetaParte (i + 1) total ++ parte
    if t i then
      let r := enviarPartes t total (i + 1) rest
      (r.1, mensaje_enviar :: r.2)
    else (false, [mensaje_enviar])

/-- `enviar_mensaje_whatsapp` (lines 492-532): a message within the limit
is one unlabeled send; a longer one is split and delivered chunk by chunk
(the inter-chunk pacing sleep is real time and not modelled). -/
def enviar_mensaje_whatsapp (t : Nat → Bool) (mensaje : List Char) : Bool × List (List Char) :=
  if mensaje.length ≤ LIMITE_WHATSAPP then (t 0, [mensaje])
  else
    let partes := dividir_mensaje mensaje LIMITE_WHATSAPP
    enviarPartes t partes.length 0 partes

/-- The process-wide mutable state: the `sesiones_activas` dict (whose
values are always `True`, so membership of the key list is the whole
content) and the `conversaciones` dict as an association list. -/
structure Estado where
  sesiones_activas : List (List Char)
  conversaciones : List (List Char × List (List Char))
deriving DecidableEq

/-- Dict lookup on the conversation map. -/
def buscarConv : List (List Char × List (List Char)) → List Char → Option (List (List Char))
  | [], _ => none
  | (k, v) :: rest, numero => if k = numero then some v else buscarConv rest numero

/-- Dict assignment on the conversation map (insertion order preserved,
as in a Python dict). -/
def ponerConv (m : List (List Char × List (List Char))) (numero : List Char)
    (v : List (List Char)) : List (List Char × List (List Char)) :=
  match m with
  | [] => [(numero, v)]
  | (k, w) :: rest =>
    if k = numero then (numero, v) :: rest else (k, w) :: ponerConv rest numero v

/-- The `f"{tipo}: {mensaje}"` tagging of line 650-651. -/
def etiqueta (es_usuario : Bool) (mensaje : List Char) : List Char :=
  (if es_usuario then lc "Usuario: " else lc "Bot: ") ++ mensaje

/-- The append-then-truncate of lines 645-655 on one history list: append
the tagged turn, and when the list exceeds 10 entries keep the last 10. -/
def agregarLista (conv : List (List Char)) (mensaje : List Char)
    (es_usuario : Bool) : List (List Char) :=
  let conv2 := conv ++ [etiqueta es_usuario mensaje]
  if 10 < conv2.length then conv2.drop (conv2.length - 10) else conv2

/-- `agregar_mensaje_a_conversacion` (lines 645-655) on the state. -/
def agregar_mensaje_a_conversacion (st : Estado) (numero mensaje : List Char)
    (es_usuario : Bool) : Estado :=
  { st with conversaciones := (ponerConv st.conversaciones numero
      (agregarLista ((buscarConv st.conversaciones numero).getD []) mensaje es_usuario)) }

/-- `formatear_historial` (lines 657-663): the last 6 entries as a block,
or the first-conversation marker. -/
def formatear_historial (st : Estado) (numero : List Char) : List Char :=
  let historial := (buscarConv st.conversaciones numero).getD []
  if historial = [] then lc "Primera conversación con este usuario."
  else lc "HISTORIAL DE CONVERSACIÓN:\n" ++
    unirLineas (historial.drop (historial.length - 6)) ++ lc "\n\n"

/-- `iniciar_sesion_inventario` (lines 665-668): `sesiones_activas[numero]
= True`; inserting an existing key leaves the dict unchanged. -/
def iniciar_sesion_inventario (st : Estado) (numero : List Char) : Estado :=
  { st with sesiones_activas :=
      if numero ∈ st.sesiones_activas then st.sesiones_activas
      else st.sesiones_activas ++ [numero] }

/-- `finalizar_sesion_inventario` (lines 670-676): delete the session key
and the conversation history for the identifier. -/
def finalizar_sesion_inventario (st : Estado) (numero : List Char) : Estado :=
  { sesiones_activas := st.sesiones_activas.filter (fun k => decide (k ≠ numero)),
    conversaciones := st.conversaciones.filter (fun p => decide (p.1 ≠ numero)) }

/-- `tiene_sesion_activa` (lines 678-680). -/
def tiene_sesion_activa (st : Estado) (numero : List Char) : Bool :=
  decide (numero ∈ st.sesiones_activas)

/-- Keyword set for the categories intent (line 830). -/
def palabras_categorias : List (List Char) :=
  [lc "categorías", lc "categorias", lc "todas las categorias"]

/-- Keyword set for the stock-total intent (line 832). -/
def palabras_stock_total : List (List Char) :=
  [lc "suma", lc "total", lc "stock total", lc "cuanto stock"]

/-- Keyword set for the valuation intent (line 834). -/
def palabras_valor : List (List Char) :=
  [lc "valor total", lc "costo total", lc "precio total"]

/-- Keyword set for the search intent (line 836). -/
def palabras_busqueda : List (List Char) :=
  [lc "buscar", lc "mostrar", lc "productos"]

/-- Stop-list dropped from extracted search terms (line 839). -/
def palabras_excluidas : List (List Char) :=
  [lc "buscar", lc "mostrar", lc "productos", lc "dame", lc "quiero"]

/-- `any(palabra in mensaje_lower for palabra in kws)`. -/
def contieneAlguna (s : List Char) (kws : List (List Char)) : Bool :=
  kws.any (fun k => contiene s k)

/-- Which aggregation (if any) the dispatcher selects for a message. -/
inductive Consulta where
  | categorias : Consulta
  | stockTotal : Consulta
  | valorInventario : Consulta
  | busqueda : List (List Char) → Consulta
  | ninguna : Consulta
deriving DecidableEq

/-- The keyword dispatch of lines 826-841: lower the message once and test
the four keyword sets in fixed priority order; for the search intent,
extract terms from the original message (tokens longer than 2 characters
not in the stop-list). -/
def clasificar_consulta (mensaje_usuario : List Char) : Consulta :=
  let mensaje_lower := pyLower mensaje_usuario
  if contieneAlguna mensaje_lower palabras_categorias then Consulta.categorias
  else if contieneAlguna mensaje_lower palabras_stock_total then Consulta.stockTotal
  else if contieneAlguna mensaje_lower palabras_valor then Consulta.valorInventario
  else if contieneAlguna mensaje_lower palabras_busqueda then
    Consulta.busqueda ((separarPalabras mensaje_usuario).filter
      (fun p => decide (2 < p.length) && decide (pyLower p ∉ palabras_excluidas)))
  else Consulta.ninguna

/-- `datos_especificos` as computed on lines 827-841: the selected
aggregation's output, or empty when no keyword set matches (or the search
intent extracted no terms). -/
def datos_especificos (df? : Option DataFrame) (mensaje_usuario : List Char) : List Char :=
  match clasificar_consulta mensaje_usuario with
  | Consulta.categorias => obtener_todas_las_categorias df?
  | Consulta.stockTotal => calcular_stock_total df?
  | Consulta.valorInventario => calcular_valor_inventario df?
  | Consulta.busqueda terminos =>
    if terminos ≠ [] then buscar_productos_especificos df? terminos else []
  | Consulta.ninguna => []

/-- The welcome message of lines 775-786. -/
def mensaje_bienvenida : List Char :=
  lc "🎯 **SESIÓN DE INVENTARIO INICIADA**\n\n¡Hola! Ahora puedes preguntarme sobre el inventario:\n\n📋 **Comandos disponibles:**\n• \"categorías\" - Ver todas las categorías\n• \"stock total\" - Calcular stock completo\n• \"buscar [producto]\" - Buscar productos específicos\n• \"precio [producto]\" - Ver precios\n• \"/fin\" - Terminar sesión\n\n¿En qué puedo ayudarte?"

/-- The farewell message of lines 795-799. -/
def mensaje_despedida : List Char :=
  lc "👋 **SESIÓN DE INVENTARIO FINALIZADA**\n\n¡Gracias por usar el sistema de inventario!\n\nPara volver a consultar el inventario, escribe: `/inventario`"

/-- The no-active-session notice of line 803. -/
def aviso_sin_sesion : List Char :=
  lc "No tienes una sesión activa. Para iniciar, escribe: `/inventario`"

/-- The apology sent when the generative call fails (line 913). -/
def mensaje_error : List Char :=
  lc "❌ Disculpa, tuve un problema procesando tu mensaje. ¿Podrías intentar de nuevo?"

/-- The prompt template of lines 845-894, with the four interpolations. -/
def construir_prompt (historial datos_especificos inventario_texto mensaje_usuario : List Char) :
    List Char :=
  lc "\nEres un BOT de WhatsApp especializado en ayudar a clientes con consultas sobre inventario.\n\n" ++
  historial ++
  lc "\nCAPACIDADES Y REGLAS:\n\n\n2. CONSULTAS NATURALES:\n   - Entiende preguntas en lenguaje cotidiano como:\n     \"búscame una cámara buena para un galpón de 20x20\"\n     \"qué notebooks tienen HDMI\"\n     \"quiero un producto barato de la categoría impresoras\"\n   - Extrae las palabras clave (ej: \"cámara\", \"HDMI\", \"galpón 20x20\") y relaciónalas con los campos del inventario (Marca, Categoría, Tipo, Características, Observaciones, Precio).\n   - Si el inventario no tiene esa información, responde:  \n     \"⚠️ Esa característica no está registrada en el inventario.\"\n\n3. CATEGORÍAS:\n   - Si piden categorías, muestra la lista completa de categorías únicas.\n\n4. CÁLCULOS MATEMÁTICOS:\n   ✅ Sumar stock total de productos  \n   ✅ Calcular valores y precios totales  \n   ✅ Contar productos por categoría  \n   ✅ Sacar promedios y estadísticas  \n   ✅ Operaciones matemáticas básicas  \n\n5. BÚSQUEDAS Y RESPUESTAS:\n   - Usa TODOS los campos disponibles del inventario.  \n   - Al mostrar productos, prioriza: Marca, Categoría, Tipo, Stock, Precio, Características, Observaciones, Valor de venta.  \n   - Ignora mayúsculas/minúsculas.  \n   - Tolera errores de escritura de 1–2 letras.  \n   - Incluye totales y cálculos si son relevantes.\n\n6. LIMITACIONES:\n   - No inventes datos que no estén en el inventario.  \n   - Sé claro, breve y útil.  \n   - Si el usuario pide una recomendación contextual (ej: “para un galpón 20x20”), usa lo que tengas en características/observaciones, pero nunca inventes compatibilidades técnicas.\n\nDATOS ESPECÍFICOS PARA ESTA CONSULTA:\n" ++
  datos_especificos ++
  lc "\n\nINVENTARIO DISPONIBLE:\n" ++
  inventario_texto ++
  lc "\n\nMensaje actual del cliente:\n\"" ++
  mensaje_usuario ++
  lc "\"\n\nResponde siguiendo las reglas anteriores. Interpreta la intención del usuario aunque no use comandos exactos.\n"

/-- `procesar_mensaje` (lines 751-919) from the point where the sender
identifier and message text have been extracted from the webhook payload.
The generative backend is an oracle `gemini` (`none` when uninitialized;
an inner `none` result models a raised exception caught on line 910).
Returns the new state and the ordered payloads handed to
`enviar_mensaje_whatsapp`.  Command paths: exact, case-insensitive,
whitespace-trimmed equality against `/inventario` and `/fin`; with no
active session any other message falls through to the silent return of
lines 806-810. -/
def procesar_mensaje (gemini : Option (List Char → Option (List Char)))
    (inventario_texto : Option (List Char)) (df? : Option DataFrame)
    (st : Estado) (numero mensaje_usuario : List Char) : Estado × List (List Char) :=
  if pyLower (pyStrip mensaje_usuario) = lc "/inventario" then
    (iniciar_sesion_inventario st numero, [mensaje_bienvenida])
  else if pyLower (pyStrip mensaje_usuario) = lc "/fin" then
    if tiene_sesion_activa st numero then
      (finalizar_sesion_inventario st numero, [mensaje_despedida])
    else (st, [aviso_sin_sesion])
  else if ¬ tiene_sesion_activa st numero then (st, [])
  else
    let historial := formatear_historial st numero
    let st1 := agregar_mensaje_a_conversacion st numero mensaje_usuario true
    match gemini with
    | none => (st1, [])
    | some generar =>
      match inventario_texto with
      | none => (st1, [mensaje_error])
      | some texto =>
        let prompt := construir_prompt historial (datos_especificos df? mensaje_usuario)
          texto mensaje_usuario
        match generar prompt with
        | none => (st1, [mensaje_error])
        | some respuesta_texto =>
          (agregar_mensaje_a_conversacion st1 numero respuesta_texto false,
           [respuesta_texto])

/-! ### Supporting lemmas -/

theorem empiezaCon_iff (p : List Char) : ∀ s, empiezaCon s p = true ↔ ∃ t, s = p ++ t := by
  induction p with
  | nil => intro s; simp [empiezaCon]
  | cons d ds ih =>
    intro s
    cases s with
    | nil => simp [empiezaCon]
    | cons c cs =>
      simp only [empiezaCon, Bool.and_eq_true, decide_eq_true_eq, ih, List.cons_append,
        List.cons.injEq]
      constructor
      · rintro ⟨rfl, t, rfl⟩; exact ⟨t, rfl, rfl⟩
      · rintro ⟨t, rfl, rfl⟩; exact ⟨rfl, t, rfl⟩

theorem contiene_iff (sub : List Char) : ∀ s,
    contiene s sub = true ↔ ∃ pre post, s = pre ++ sub ++ post := by
  intro s
  induction s with
  | nil =>
    simp only [contiene, List.isEmpty_iff]
    constructor
    · rintro rfl; exact ⟨[], [], rfl⟩
    · rintro ⟨pre, post, h⟩
      rcases List.append_eq_nil.mp (List.append_eq_nil.mp h.symm).1 with ⟨-, h2⟩
      exact h2
  | cons c cs ih =>
    simp only [contiene, Bool.or_eq_true, empiezaCon_iff, ih]
    constructor
    · rintro (⟨t, h⟩ | ⟨pre, post, h⟩)
      · exact ⟨[], t, by simpa using h⟩
      · exact ⟨c :: pre, post, by simp [h]⟩
    · rintro ⟨pre, post, h⟩
      cases pre with
      | nil => exact Or.inl ⟨post, by simpa using h⟩
      | cons x xs =>
        simp only [List.cons_append, List.cons.injEq] at h
        exact Or.inr ⟨xs, post, h.2⟩

theorem contiene_de_partes (s pre mid post : List Char) (h : s = pre ++ mid ++ post) :
    contiene s mid = true :=
  (contiene_iff mid s).mpr ⟨pre, post, h⟩

theorem buscarConv_filtrado (numero : List Char) :
    ∀ m : List (List Char × List (List Char)),
      buscarConv (m.filter (fun p => decide (p.1 ≠ numero))) numero = none := by
  intro m
  induction m with
  | nil => rfl
  | cons kv rest ih =>
    by_cases h : kv.1 = numero
    · simpa [List.filter, h] using ih
    · simpa [List.filter, h, buscarConv] using ih

theorem buscarConv_ponerConv (numero v : _) :
    ∀ m : List (List Char × List (List Char)),
      buscarConv (ponerConv m numero v) numero = some v := by
  intro m
  induction m with
  | nil => simp [ponerConv, buscarConv]
  | cons kv rest ih =>
    by_cases h : kv.1 = numero
    · cases kv; simp_all [ponerConv, buscarConv]
    · cases kv; simp_all [ponerConv, buscarConv]

/-! ### Claim C4: without a session, non-command messages are dropped -/

/-- Claim C4: for a sender with no active session, any message that is
neither the start command nor the stop command produces zero outbound
sends and leaves the state unchanged (lines 806-810). -/
theorem claim_C4_sin_sesion_silencio
    (gemini : Option (List Char → Option (List Char)))
    (inventario_texto : Option (List Char)) (df? : Option DataFrame)
    (st : Estado) (numero mensaje : List Char)
    (h1 : pyLower (pyStrip mensaje) ≠ lc "/inventario")
    (h2 : pyLower (pyStrip mensaje) ≠ lc "/fin")
    (h3 : tiene_sesion_activa st numero = false) :
    procesar_mensaje gemini inventario_texto df? st numero mensaje = (st, []) := by
  simp [procesar_mensaje, h1, h2, h3]

/-- Witness for C4 at a concrete no-session state and message. -/
theorem claim_C4_witness :
    pyLower (pyStrip (lc "hola")) ≠ lc "/inventario" ∧
    pyLower (pyStrip (lc "hola")) ≠ lc "/fin" ∧
    tiene_sesion_activa ⟨[], []⟩ (lc "5491100000000") = false ∧
    procesar_mensaje none none none ⟨[], []⟩ (lc "5491100000000") (lc "hola") =
      (⟨[], []⟩, []) :=
  ⟨by decide, by decide, by decide,
   claim_C4_sin_sesion_silencio none none none ⟨[], []⟩ _ _
     (by decide) (by decide) (by decide)⟩

/-! ### Claim C10: restart with an active session leaves history intact -/

/-- Claim C10: the start command on an already-active session re-confirms
the session flag (the dict write is an overwrite of `True` with `True`),
sends exactly the welcome message, and leaves the conversation history --
indeed the whole state -- unchanged (lines 665-668, 772-789). -/
theorem claim_C10_reinicio_preserva_historial
    (gemini : Option (List Char → Option (List Char)))
    (inventario_texto : Option (List Char)) (df? : Option DataFrame)
    (st : Estado) (numero mensaje : List Char)
    (h : pyLower (pyStrip mensaje) = lc "/inventario")
    (ha : tiene_sesion_activa st numero = true) :
    procesar_mensaje gemini inventario_texto df? st numero mensaje =
      (st, [mensaje_bienvenida]) ∧
    (procesar_mensaje gemini inventario_texto df? st numero mensaje).1.conversaciones =
      st.conversaciones := by
  have hm : numero ∈ st.sesiones_activas := by
    simpa [tiene_sesion_activa] using ha
  obtain ⟨ses, conv⟩ := st
  refine ⟨?_, ?_⟩ <;> simp [procesar_mensaje, h, iniciar_sesion_inventario, hm]

/-- Witness for C10: a concrete active session with stored history. -/
theorem claim_C10_witness :
    pyLower (pyStrip (lc " /Inventario ")) = lc "/inventario" ∧
    tiene_sesion_activa ⟨[lc "5"], [(lc "5", [lc "Usuario: hola"])]⟩ (lc "5") = true ∧
    procesar_mensaje none none none ⟨[lc "5"], [(lc "5", [lc "Usuario: hola"])]⟩
      (lc "5") (lc " /Inventario ") =
      (⟨[lc "5"], [(lc "5", [lc "Usuario: hola"])]⟩, [mensaje_bienvenida]) :=
  ⟨by decide, by decide,
   (claim_C10_reinicio_preserva_historial none none none _ _ _
     (by decide) (by decide)).1⟩

/-! ### Claim C6: stop command -/

/-- Claim C6: the stop command on an active session deletes both the
session entry and the conversation history of the identifier and emits
exactly the farewell message; with no active session it emits exactly the
no-session notice and changes nothing (lines 670-676, 791-804). -/
theorem claim_C6_comando_fin
    (gemini : Option (List Char → Option (List Char)))
    (inventario_texto : Option (List Char)) (df? : Option DataFrame)
    (st : Estado) (numero mensaje : List Char)
    (h : pyLower (pyStrip mensaje) = lc "/fin") :
    (tiene_sesion_activa st numero = true →
      procesar_mensaje gemini inventario_texto df? st numero mensaje =
        (finalizar_sesion_inventario st numero, [mensaje_despedida]) ∧
      tiene_sesion_activa (finalizar_sesion_inventario st numero) numero = false ∧
      buscarConv (finalizar_sesion_inventario st numero).conversaciones numero = none) ∧
    (tiene_sesion_activa st numero = false →
      procesar_mensaje gemini inventario_texto df? st numero mensaje =
        (st, [aviso_sin_sesion])) := by
  have h1 : pyLower (pyStrip mensaje) ≠ lc "/inventario" := by rw [h]; decide
  have hfi : lc "/fin" ≠ lc "/inventario" := by decide
  refine ⟨fun ha => ⟨?_, ?_, ?_⟩, fun hn => ?_⟩
  · simp [procesar_mensaje, h1, h, ha, hfi]
  · simp [tiene_sesion_activa, finalizar_sesion_inventario, List.mem_filter]
  · exact buscarConv_filtrado numero st.conversaciones
  · simp [procesar_mensaje, h1, h, hn, hfi]

/-- Witness for C6, exercising both the active and the inactive case. -/
theorem claim_C6_witness :
    pyLower (pyStrip (lc " /FIN ")) = lc "/fin" ∧
    (procesar_mensaje none none none ⟨[lc "5"], [(lc "5", [lc "Usuario: hola"])]⟩
        (lc "5") (lc " /FIN ") =
      (finalizar_sesion_inventario ⟨[lc "5"], [(lc "5", [lc "Usuario: hola"])]⟩ (lc "5"),
       [mensaje_despedida])) ∧
    buscarConv (finalizar_sesion_inventario
      ⟨[lc "5"], [(lc "5", [lc "Usuario: hola"])]⟩ (lc "5")).conversaciones (lc "5") = none ∧
    procesar_mensaje none none none ⟨[], []⟩ (lc "5") (lc "/fin") =
      (⟨[], []⟩, [aviso_sin_sesion]) := by
  refine ⟨by decide, ?_, ?_, ?_⟩
  · exact ((claim_C6_comando_fin none none none
      ⟨[lc "5"], [(lc "5", [lc "Usuario: hola"])]⟩ (lc "5") (lc " /FIN ")
      (by decide)).1 (by decide)).1
  · exact ((claim_C6_comando_fin none none none
      ⟨[lc "5"], [(lc "5", [lc "Usuario: hola"])]⟩ (lc "5") (lc " /FIN ")
      (by decide)).1 (by decide)).2.2
  · exact (claim_C6_comando_fin none none none ⟨[], []⟩ (lc "5") (lc "/fin")
      (by decide)).2 (by decide)

/-! ### Claim C5: the valuation branch of the dispatcher is unreachable -/

theorem valor_implica_stock {ml : List Char}
    (h : contieneAlguna ml palabras_valor = true) :
    contieneAlguna ml palabras_stock_total = true := by
  have htotal : contiene ml (lc "total") = true := by
    simp only [contieneAlguna, palabras_valor, List.any_cons, List.any_nil,
      Bool.or_eq_true, Bool.or_false] at h
    rcases h with h | h | h
    · obtain ⟨pre, post, hs⟩ := (contiene_iff _ ml).mp h
      exact contiene_de_partes ml (pre ++ lc "valor ") (lc "total") post (by simpa using hs)
    · obtain ⟨pre, post, hs⟩ := (contiene_iff _ ml).mp h
      exact contiene_de_partes ml (pre ++ lc "costo ") (lc "total") post (by simpa using hs)
    · obtain ⟨pre, post, hs⟩ := (contiene_iff _ ml).mp h
      exact contiene_de_partes ml (pre ++ lc "precio ") (lc "total") post (by simpa using hs)
  simp only [contieneAlguna, palabras_stock_total, List.any_cons, List.any_nil,
    Bool.or_eq_true]
  exact Or.inr (Or.inl htotal)

/-- Claim C5: the dispatcher never selects the valuation aggregation:
every valuation keyword contains the substring `total`, which already
triggers the stock-total branch tested earlier in the fixed priority
order (lines 829-841), so `calcular_valor_inventario` is unreachable from
`procesar_mensaje`. -/
theorem claim_C5_valoracion_inalcanzable (mensaje_usuario : List Char) :
    clasificar_consulta mensaje_usuario ≠ Consulta.valorInventario := by
  intro h
  unfold clasificar_consulta at h
  by_cases hcat : contieneAlguna (pyLower mensaje_usuario) palabras_categorias = true
  · simp [hcat] at h
  · by_cases hstock : contieneAlguna (pyLower mensaje_usuario) palabras_stock_total = true
    · simp [hcat, hstock] at h
    · by_cases hval : contieneAlguna (pyLower mensaje_usuario) palabras_valor = true
      · exact hstock (valor_implica_stock hval)
      · by_cases hbus : contieneAlguna (pyLower mensaje_usuario) palabras_busqueda = true <;>
          simp [hcat, hstock, hval, hbus] at h

/-! ### Claim C7: bounded conversation memory -/

/-- The per-identifier history after a sequence of appends, at the level
of one history list. -/
def historialFold (conv : List (List Char)) (msgs : List (List Char × Bool)) :
    List (List Char) :=
  msgs.foldl (fun c m => agregarLista c m.1 m.2) conv

theorem conv_tras_agregar (st : Estado) (numero m : List Char) (b : Bool) :
    buscarConv (agregar_mensaje_a_conversacion st numero m b).conversaciones numero =
      some (agregarLista ((buscarConv st.conversaciones numero).getD []) m b) := by
  simp [agregar_mensaje_a_conversacion, buscarConv_ponerConv]

theorem conv_tras_foldl (numero : List Char) :
    ∀ (msgs : List (List Char × Bool)) (st : Estado),
      (buscarConv (msgs.foldl (fun st m =>
          agregar_mensaje_a_conversacion st numero m.1 m.2) st).conversaciones numero).getD []
        = historialFold ((buscarConv st.conversaciones numero).getD []) msgs := by
  intro msgs
  induction msgs with
  | nil => intro st; simp [historialFold]
  | cons m ms ih =>
    intro st
    simp only [List.foldl_cons]
    rw [ih, conv_tras_agregar]
    simp [historialFold]

theorem drop_append_singleton {α : Type} (T : List α) (x : α) (k : Nat)
    (hk : k ≤ T.length) : (T ++ [x]).drop k = T.drop k ++ [x] := by
  rw [List.drop_append_eq_append_drop]
  have h0 : k - T.length = 0 := by omega
  rw [h0, List.drop_zero]

theorem historialFold_desde_vacio :
    ∀ msgs : List (List Char × Bool),
      historialFold [] msgs =
        (msgs.map (fun m => etiqueta m.2 m.1)).drop (msgs.length - 10) := by
  intro msgs
  induction msgs using List.reverseRecOn with
  | nil => simp [historialFold]
  | append_singleton ms m ih =>
    have hfold : historialFold [] (ms ++ [m]) =
        agregarLista (historialFold [] ms) m.1 m.2 := by
      simp [historialFold, List.foldl_append]
    rw [hfold, ih]
    have hlen : (ms.map (fun m => etiqueta m.2 m.1)).length = ms.length :=
      List.length_map ms _
    have hmapapp : (ms ++ [m]).map (fun m => etiqueta m.2 m.1) =
        ms.map (fun m => etiqueta m.2 m.1) ++ [etiqueta m.2 m.1] := by
      simp
    have hlapp : (ms ++ [m]).length = ms.length + 1 := by simp
    rw [hmapapp, hlapp]
    by_cases hn : ms.length ≤ 9
    · have h0 : ms.length - 10 = 0 := by omega
      have h1 : ms.length + 1 - 10 = 0 := by omega
      rw [h0, h1, List.drop_zero, List.drop_zero]
      simp only [agregarLista]
      rw [if_neg (by simp [hlen]; omega)]
    · have hge : 10 ≤ ms.length := by omega
      have hlen2 : ((ms.map (fun m => etiqueta m.2 m.1)).drop (ms.length - 10)).length = 10 := by
        rw [List.length_drop, hlen]; omega
      simp only [agregarLista]
      rw [if_pos (by simp [hlen2])]
      have hc2 : ((ms.map (fun m => etiqueta m.2 m.1)).drop (ms.length - 10) ++
          [etiqueta m.2 m.1]).length = 11 := by
        simp [hlen2]
      rw [hc2]
      rw [drop_append_singleton _ _ _ (by rw [hlen2]; omega),
        drop_append_singleton _ _ _ (by rw [hlen]; omega), List.drop_drop]
      have h4 : ms.length - 10 + (11 - 10) = ms.length + 1 - 10 := by omega
      rw [h4]

/-- Claim C7: the conversation memory of an identifier that starts with no
stored history holds, after any sequence of appends, exactly the tagged
turns of the last ten appends in order (so never more than 10 entries,
evicted oldest-first); after 11 appends the 1st is gone and the 11th is
the last entry (lines 645-655). -/
theorem claim_C7_memoria_acotada (numero : List Char) (st0 : Estado)
    (msgs : List (List Char × Bool))
    (h0 : buscarConv st0.conversaciones numero = none) :
    (buscarConv (msgs.foldl (fun st m =>
        agregar_mensaje_a_conversacion st numero m.1 m.2) st0).conversaciones numero).getD []
      = (msgs.map (fun m => etiqueta m.2 m.1)).drop (msgs.length - 10) ∧
    ((buscarConv (msgs.foldl (fun st m =>
        agregar_mensaje_a_conversacion st numero m.1 m.2) st0).conversaciones numero).getD
      []).length ≤ 10 ∧
    (msgs.length = 11 →
      (buscarConv (msgs.foldl (fun st m =>
          agregar_mensaje_a_conversacion st numero m.1 m.2) st0).conversaciones numero).getD []
        = (msgs.drop 1).map (fun m => etiqueta m.2 m.1)) := by
  have hmain : (buscarConv (msgs.foldl (fun st m =>
      agregar_mensaje_a_conversacion st numero m.1 m.2) st0).conversaciones numero).getD []
      = (msgs.map (fun m => etiqueta m.2 m.1)).drop (msgs.length - 10) := by
    rw [conv_tras_foldl, h0]
    simpa using historialFold_desde_vacio msgs
  refine ⟨hmain, ?_, ?_⟩
  · rw [hmain, List.length_drop, List.length_map]; omega
  · intro h11
    rw [hmain, h11]
    rw [← List.map_drop]

/-- Witness for C7: eleven appends from an empty state. -/
theorem claim_C7_witness :
    buscarConv (Estado.mk [] []).conversaciones (lc "5") = none ∧
    ((buscarConv ((List.replicate 11 (lc "x", true)).foldl (fun st m =>
        agregar_mensaje_a_conversacion st (lc "5") m.1 m.2) (Estado.mk [] [])).conversaciones
        (lc "5")).getD []
      = ((List.replicate 11 (lc "x", true)).map (fun m => etiqueta m.2 m.1)).drop
          ((List.replicate 11 (lc "x", true)).length - 10) ∧
    ((buscarConv ((List.replicate 11 (lc "x", true)).foldl (fun st m =>
        agregar_mensaje_a_conversacion st (lc "5") m.1 m.2) (Estado.mk [] [])).conversaciones
        (lc "5")).getD []).length ≤ 10 ∧
    ((List.replicate 11 (lc "x", true)).length = 11 →
      (buscarConv ((List.replicate 11 (lc "x", true)).foldl (fun st m =>
          agregar_mensaje_a_conversacion st (lc "5") m.1 m.2) (Estado.mk [] [])).conversaciones
          (lc "5")).getD []
        = ((List.replicate 11 (lc "x", true)).drop 1).map (fun m => etiqueta m.2 m.1))) :=
  ⟨by decide, claim_C7_memoria_acotada (lc "5") (Estado.mk [] [])
    (List.replicate 11 (lc "x", true)) (by decide)⟩

/-! ### Claim C9: delivery stops at the first failed chunk -/

theorem enviarPartes_spec (t : Nat → Bool) (total : Nat) :
    ∀ (partes : List (List Char)) (i : Nat),
      ((enviarPartes t total i partes).1 = true ↔
        ∀ j, j < partes.length → t (i + j) = true) ∧
      ((enviarPartes t total i partes).1 = true →
        (enviarPartes t total i partes).2.length = partes.length) ∧
      ((enviarPartes t total i partes).1 = false →
        ∃ k, k < partes.length ∧ t (i + k) = false ∧ (∀ j, j < k → t (i + j) = true) ∧
          (enviarPartes t total i partes).2.length = k + 1) := by
  intro partes
  induction partes with
  | nil => intro i; simp [enviarPartes]
  | cons p ps ih =>
    intro i
    by_cases ht : t i = true
    · have hrec := ih (i + 1)
      simp only [enviarPartes, ht, if_true, List.length_cons]
      refine ⟨?_, ?_, ?_⟩
      · rw [hrec.1]
        constructor
        · intro hall j hj
          cases j with
          | zero => simpa using ht
          | succ j' =>
            have h2 : i + (j' + 1) = i + 1 + j' := by omega
            rw [h2]; exact hall j' (by omega)
        · intro hall j hj
          have h2 : i + 1 + j = i + (j + 1) := by omega
          rw [h2]; exact hall (j + 1) (by omega)
      · intro hok
        rw [hrec.2.1 hok]
      · intro hfail
        obtain ⟨k, hk, hkf, hkb, hkl⟩ := hrec.2.2 hfail
        refine ⟨k + 1, by omega, ?_, ?_, ?_⟩
        · have h2 : i + (k + 1) = i + 1 + k := by omega
          rw [h2]; exact hkf
        · intro j hj
          cases j with
          | zero => simpa using ht
          | succ j' =>
            have h2 : i + (j' + 1) = i + 1 + j' := by omega
            rw [h2]; exact hkb j' (by omega)
        · rw [hkl]
    · have ht' : t i = false := by simpa using ht
      simp only [enviarPartes, ht', Bool.false_eq_true, if_false, List.length_cons]
      refine ⟨?_, by simp, ?_⟩
      · constructor
        · intro h; exact absurd h (by simp)
        · intro hall
          have := hall 0 (by omega)
          rw [Nat.add_zero] at this
          exact absurd this (by simp [ht'])
      · intro _
        exact ⟨0, by omega, by simpa using ht', by omega, by simp⟩

/-- Claim C9: for a message long enough to be chunked, delivery succeeds
exactly when every chunk's send succeeds; on success every chunk is
attempted once, and on failure the attempts stop right after the first
failing send -- later chunks are never attempted and nothing is retried
(lines 510-528). -/
theorem claim_C9_entrega_se_detiene (t : Nat → Bool) (mensaje : List Char)
    (h : LIMITE_WHATSAPP < mensaje.length) :
    ((enviar_mensaje_whatsapp t mensaje).1 = true ↔
      ∀ j, j < (dividir_mensaje mensaje LIMITE_WHATSAPP).length → t j = true) ∧
    ((enviar_mensaje_whatsapp t mensaje).1 = true →
      (enviar_mensaje_whatsapp t mensaje).2.length =
        (dividir_mensaje mensaje LIMITE_WHATSAPP).length) ∧
    ((enviar_mensaje_whatsapp t mensaje).1 = false →
      ∃ k, k < (dividir_mensaje mensaje LIMITE_WHATSAPP).length ∧ t k = false ∧
        (∀ j, j < k → t j = true) ∧
        (enviar_mensaje_whatsapp t mensaje).2.length = k + 1) := by
  have hne : ¬ mensaje.length ≤ LIMITE_WHATSAPP := by omega
  have hs := enviarPartes_spec t (dividir_mensaje mensaje LIMITE_WHATSAPP).length
    (dividir_mensaje mensaje LIMITE_WHATSAPP) 0
  simp only [enviar_mensaje_whatsapp, hne, if_false]
  simpa using hs

/-- Witness for C9 at a 4001-character message and an always-succeeding
transport. -/
theorem claim_C9_witness :
    LIMITE_WHATSAPP < (List.replicate 4001 'a').length ∧
    (((enviar_mensaje_whatsapp (fun _ => true) (List.replicate 4001 'a')).1 = true ↔
      ∀ j, j < (dividir_mensaje (List.replicate 4001 'a') LIMITE_WHATSAPP).length →
        (fun _ : Nat => true) j = true) ∧
    ((enviar_mensaje_whatsapp (fun _ => true) (List.replicate 4001 'a')).1 = true →
      (enviar_mensaje_whatsapp (fun _ => true) (List.replicate 4001 'a')).2.length =
        (dividir_mensaje (List.replicate 4001 'a') LIMITE_WHATSAPP).length) ∧
    ((enviar_mensaje_whatsapp (fun _ => true) (List.replicate 4001 'a')).1 = false →
      ∃ k, k < (dividir_mensaje (List.replicate 4001 'a') LIMITE_WHATSAPP).length ∧
        (fun _ : Nat => true) k = false ∧ (∀ j, j < k → (fun _ : Nat => true) j = true) ∧
        (enviar_mensaje_whatsapp (fun _ => true) (List.replicate 4001 'a')).2.length = k + 1)) :=
  ⟨by rw [List.length_replicate]; decide,
   claim_C9_entrega_se_detiene (fun _ => true) (List.replicate 4001 'a')
     (by rw [List.length_replicate]; decide)⟩

/-! ### Claim C1: column-role resolution order -/

theorem buscarConBreak_some (p : List Char → Bool) :
    ∀ (cols : List (List Char)) (c : List Char), buscarConBreak p cols = some c →
      p c = true ∧ ∃ pre post, cols = pre ++ c :: post ∧ ∀ x ∈ pre, p x = false := by
  intro cols
  induction cols with
  | nil => intro c h; simp [buscarConBreak] at h
  | cons a rest ih =>
    intro c h
    by_cases hp : p a = true
    · rw [buscarConBreak, if_pos hp] at h
      obtain rfl : a = c := by simpa using h
      exact ⟨hp, [], rest, rfl, by simp⟩
    · rw [buscarConBreak, if_neg hp] at h
      obtain ⟨h1, pre, post, heq, hpre⟩ := ih c h
      refine ⟨h1, a :: pre, post, by rw [heq]; rfl, ?_⟩
      intro x hx
      rcases List.mem_cons.mp hx with rfl | hx
      · simpa using hp
      · exact hpre x hx

theorem buscarSinBreak_some (p : List Char → Bool) :
    ∀ (cols : List (List Char)) (c : List Char), buscarSinBreak p cols = some c →
      p c = true ∧ ∃ pre post, cols = pre ++ c :: post ∧ ∀ x ∈ post, p x = false := by
  intro cols
  induction cols using List.reverseRecOn with
  | nil => intro c h; simp [buscarSinBreak] at h
  | append_singleton rest a ih =>
    intro c h
    rw [buscarSinBreak, List.foldl_append, List.foldl_cons, List.foldl_nil] at h
    by_cases hp : p a = true
    · rw [if_pos hp] at h
      obtain rfl : a = c := by simpa using h
      exact ⟨hp, rest, [], by simp, by simp⟩
    · rw [if_neg hp] at h
      have h' : buscarSinBreak p rest = some c := h
      obtain ⟨h1, pre, post, heq, hpost⟩ := ih c h'
      refine ⟨h1, pre, post ++ [a], by rw [heq]; simp, ?_⟩
      intro x hx
      rcases List.mem_append.mp hx with hx | hx
      · exact hpost x hx
      · obtain rfl : x = a := by simpa using hx
        simpa using hp

/-- A dataset with two price-matching columns: the valuation aggregation
resolves the LAST one. -/
def dfPrecioDoble : DataFrame :=
  ⟨[lc "precio_a", lc "precio_b", lc "stock"],
   [[Celda.numero 1, Celda.numero 100, Celda.numero 2]]⟩

/-- Modelled from the spec's words, for comparison only: the valuation
total with FIRST-match column resolution, as section 4.1's invariant
describes it.  The source's `calcular_valor_inventario` differs: its
resolution loop has no break. -/
def calcular_valor_segun_spec : Option DataFrame → List Char
  | none => lc "No hay inventario disponible"
  | some df =>
    match buscarConBreak (coincideCol columnas_precio) df.cols with
    | none => lc "No se encontró columna de precio en el inventario"
    | some col_precio =>
      match buscarConBreak (coincideCol columnas_stock_valor) df.cols with
      | none => lc "No se encontró columna de stock en el inventario"
      | some col_stock =>
        let precios := (columna df col_precio).map coercionNumerica
        let stocks := (columna df col_stock).map coercionNumerica
        let valores_producto := List.zipWith productoOpcional precios stocks
        let valor_total := sumaValidos valores_producto
        let productos_valorados := conteoValidos valores_producto
        lc "💰 **VALOR DEL INVENTARIO:**\n\n• Valor total: **$" ++
          fmtComa 2 valor_total ++
          lc "**\n• Productos valorados: **" ++ digitosNat productos_valorados ++
          lc "**\n• Valor promedio por producto: **$" ++
          fmtOpcional 2 (divNumpy valor_total productos_valorados) ++ lc "**"

/-- Counterexample to C1 as stated: on a dataset whose columns are
`precio_a`, `precio_b`, `stock` (prices 1 and 100, stock 2), the
valuation total resolves the price role to `precio_b` -- the LAST
matching column -- while first-match resolution would pick `precio_a`;
the computed total is accordingly $200.00, not the $2.00 first-match
resolution would give. -/
theorem claim_C1_counterexample :
    buscarSinBreak (coincideCol columnas_precio) dfPrecioDoble.cols = some (lc "precio_b") ∧
    buscarConBreak (coincideCol columnas_precio) dfPrecioDoble.cols = some (lc "precio_a") ∧
    lc "precio_b" ≠ lc "precio_a" ∧
    calcular_valor_inventario (some dfPrecioDoble) =
      lc "💰 **VALOR DEL INVENTARIO:**\n\n• Valor total: **$200.00**\n• Productos valorados: **1**\n• Valor promedio por producto: **$200.00**" ∧
    calcular_valor_segun_spec (some dfPrecioDoble) =
      lc "💰 **VALOR DEL INVENTARIO:**\n\n• Valor total: **$2.00**\n• Productos valorados: **1**\n• Valor promedio por producto: **$2.00**" := by
  refine ⟨by decide, by decide, by decide, by decide, by decide⟩

/-- Claim C1 as amended: the category and stock-total aggregations resolve
their column with first-match over the stored order and report an
explicit not-found message when no column matches; the valuation total
instead resolves its price and stock columns to the LAST matching column
(its loop has no break), still reporting the explicit not-found messages
when a role is absent. -/
theorem claim_C1_resolucion_columnas (df : DataFrame) :
    (∀ c, buscarConBreak (coincideCol columnas_categoria) df.cols = some c →
      coincideCol columnas_categoria c = true ∧
      ∃ pre post, df.cols = pre ++ c :: post ∧
        ∀ x ∈ pre, coincideCol columnas_categoria x = false) ∧
    (buscarConBreak (coincideCol columnas_categoria) df.cols = none →
      obtener_todas_las_categorias (some df) =
        lc "No se encontró columna de categoría en el inventario") ∧
    (∀ c, buscarConBreak (coincideCol columnas_stock) df.cols = some c →
      coincideCol columnas_stock c = true ∧
      ∃ pre post, df.cols = pre ++ c :: post ∧
        ∀ x ∈ pre, coincideCol columnas_stock x = false) ∧
    (buscarConBreak (coincideCol columnas_stock) df.cols = none →
      calcular_stock_total (some df) =
        lc "No se encontró columna de stock en el inventario") ∧
    (∀ c, buscarSinBreak (coincideCol columnas_precio) df.cols = some c →
      coincideCol columnas_precio c = true ∧
      ∃ pre post, df.cols = pre ++ c :: post ∧
        ∀ x ∈ post, coincideCol columnas_precio x = false) ∧
    (buscarSinBreak (coincideCol columnas_precio) df.cols = none →
      calcular_valor_inventario (some df) =
        lc "No se encontró columna de precio en el inventario") ∧
    (∀ c, buscarSinBreak (coincideCol columnas_precio) df.cols = some c →
      buscarSinBreak (coincideCol columnas_stock_valor) df.cols = none →
      calcular_valor_inventario (some df) =
        lc "No se encontró columna de stock en el inventario") ∧
    (∀ c, buscarSinBreak (coincideCol columnas_stock_valor) df.cols = some c →
      coincideCol columnas_stock_valor c = true ∧
      ∃ pre post, df.cols = pre ++ c :: post ∧
        ∀ x ∈ post, coincideCol columnas_stock_valor x = false) := by
  refine ⟨fun c h => buscarConBreak_some _ df.cols c h,
    fun h => by simp [obtener_todas_las_categorias, h],
    fun c h => buscarConBreak_some _ df.cols c h,
    fun h => by simp [calcular_stock_total, h],
    fun c h => buscarSinBreak_some _ df.cols c h,
    fun h => by simp [calcular_valor_inventario, h],
    fun c hp hs => by simp [calcular_valor_inventario, hp, hs],
    fun c h => buscarSinBreak_some _ df.cols c h⟩

/-- Witness for C1: a concrete resolution on `dfPrecioDoble` and a
concrete not-found dataset. -/
theorem claim_C1_witness :
    (coincideCol columnas_precio (lc "precio_b") = true ∧
      ∃ pre post, dfPrecioDoble.cols = pre ++ lc "precio_b" :: post ∧
        ∀ x ∈ post, coincideCol columnas_precio x = false) ∧
    (coincideCol columnas_stock_valor (lc "stock") = true ∧
      ∃ pre post, dfPrecioDoble.cols = pre ++ lc "stock" :: post ∧
        ∀ x ∈ post, coincideCol columnas_stock_valor x = false) ∧
    obtener_todas_las_categorias (some (DataFrame.mk [lc "SKU"] [])) =
      lc "No se encontró columna de categoría en el inventario" :=
  ⟨(claim_C1_resolucion_columnas dfPrecioDoble).2.2.2.2.1 (lc "precio_b") (by decide),
   (claim_C1_resolucion_columnas dfPrecioDoble).2.2.2.2.2.2.2 (lc "stock") (by decide),
   (claim_C1_resolucion_columnas (DataFrame.mk [lc "SKU"] [])).2.1 (by decide)⟩

/-! ### Claim C2: degenerate averages -/

theorem sumaValidos_de_conteo_cero :
    ∀ l : List (Option Fraccion), conteoValidos l = 0 → sumaValidos l = 0 := by
  intro l
  induction l with
  | nil => intro _; rfl
  | cons x rest ih =>
    cases x with
    | none =>
      intro h
      have := ih (by simpa [conteoValidos] using h)
      simpa [sumaValidos] using this
    | some f => intro h; simp [conteoValidos] at h

/-- A dataset whose stock column resolves but holds no numeric cell. -/
def dfStockDegenerado : DataFrame := ⟨[lc "stock"], [[Celda.texto (lc "abc")]]⟩

/-- A dataset whose price and stock columns resolve but no record has
both values numeric. -/
def dfValorDegenerado : DataFrame :=
  ⟨[lc "precio", lc "stock"], [[Celda.texto (lc "x"), Celda.texto (lc "y")]]⟩

/-- Counterexample to C2 as stated: with zero valid cells neither
aggregation crashes, but the unguarded `total/count` division produces
float NaN, which both functions render as the literal text `nan` inside
the returned string -- not as an explicit not-available value. -/
theorem claim_C2_counterexample :
    calcular_stock_total (some dfStockDegenerado) =
      lc "📊 **RESUMEN DE STOCK:**\n\n• Stock total: **0** unidades\n• Productos con stock registrado: **0**\n• Promedio por producto: **nan** unidades" ∧
    contiene (calcular_stock_total (some dfStockDegenerado)) (lc "nan") = true ∧
    calcular_valor_inventario (some dfValorDegenerado) =
      lc "💰 **VALOR DEL INVENTARIO:**\n\n• Valor total: **$0.00**\n• Productos valorados: **0**\n• Valor promedio por producto: **$nan**" ∧
    contiene (calcular_valor_inventario (some dfValorDegenerado)) (lc "nan") = true := by
  refine ⟨by decide, by decide, by decide, by decide⟩

/-- Claim C2 as amended: when the relevant column(s) resolve but zero
cells are valid, both aggregations still return a result string without
raising -- the totals render as 0 -- but the average is the formatted
float NaN, i.e. the literal text `nan`, rather than an explicit
not-available value. -/
theorem claim_C2_promedio_nan (df : DataFrame) :
    (∀ col, buscarConBreak (coincideCol columnas_stock) df.cols = some col →
      conteoValidos ((columna df col).map coercionNumerica) = 0 →
      calcular_stock_total (some df) =
        lc "📊 **RESUMEN DE STOCK:**\n\n• Stock total: **0** unidades\n• Productos con stock registrado: **0**\n• Promedio por producto: **nan** unidades") ∧
    (∀ cp cs, buscarSinBreak (coincideCol columnas_precio) df.cols = some cp →
      buscarSinBreak (coincideCol columnas_stock_valor) df.cols = some cs →
      conteoValidos (List.zipWith productoOpcional
        ((columna df cp).map coercionNumerica)
        ((columna df cs).map coercionNumerica)) = 0 →
      calcular_valor_inventario (some df) =
        lc "💰 **VALOR DEL INVENTARIO:**\n\n• Valor total: **$0.00**\n• Productos valorados: **0**\n• Valor promedio por producto: **$nan**") := by
  constructor
  · intro col h1 h2
    have h0 := sumaValidos_de_conteo_cero _ h2
    simp only [calcular_stock_total, h1]
    rw [h0, h2]
    decide
  · intro cp cs hp hs h2
    have h0 := sumaValidos_de_conteo_cero _ h2
    simp only [calcular_valor_inventario, hp, hs]
    rw [h0, h2]
    decide

/-- Witness for C2 at the two degenerate datasets. -/
theorem claim_C2_witness :
    buscarConBreak (coincideCol columnas_stock) dfStockDegenerado.cols = some (lc "stock") ∧
    conteoValidos ((columna dfStockDegenerado (lc "stock")).map coercionNumerica) = 0 ∧
    calcular_stock_total (some dfStockDegenerado) =
      lc "📊 **RESUMEN DE STOCK:**\n\n• Stock total: **0** unidades\n• Productos con stock registrado: **0**\n• Promedio por producto: **nan** unidades" ∧
    calcular_valor_inventario (some dfValorDegenerado) =
      lc "💰 **VALOR DEL INVENTARIO:**\n\n• Valor total: **$0.00**\n• Productos valorados: **0**\n• Valor promedio por producto: **$nan**" :=
  ⟨by decide, by decide,
   (claim_C2_promedio_nan dfStockDegenerado).1 (lc "stock") (by decide) (by decide),
   (claim_C2_promedio_nan dfValorDegenerado).2 (lc "precio") (lc "stock")
     (by decide) (by decide) (by decide)⟩

/-! ### Claim C8: the categories list -/

theorem leLex_total : ∀ a b : List Char, leLex a b = true ∨ leLex b a = true := by
  intro a
  induction a with
  | nil => intro b; left; rfl
  | cons x xs ih =>
    intro b
    cases b with
    | nil => right; rfl
    | cons y ys =>
      by_cases hxy : x = y
      · subst hxy
        rcases ih ys with h | h
        · left; simpa [leLex] using h
        · right; simpa [leLex] using h
      · rcases lt_trichotomy x y with h | h | h
        · left; simp [leLex, hxy, h]
        · exact absurd h hxy
        · right
          have hyx : ¬ y = x := fun he => hxy he.symm
          simp [leLex, hyx, h]

theorem leLex_trans : ∀ a b c : List Char,
    leLex a b = true → leLex b c = true → leLex a c = true := by
  intro a
  induction a with
  | nil => intro b c _ _; rfl
  | cons x xs ih =>
    intro b c hab hbc
    cases b with
    | nil => simp [leLex] at hab
    | cons y ys =>
      cases c with
      | nil => simp [leLex] at hbc
      | cons z zs =>
        by_cases hxy : x = y
        · subst hxy
          by_cases hxz : x = z
          · subst hxz
            simp only [leLex, if_pos rfl] at hab hbc ⊢
            exact ih ys zs hab hbc
          · simp only [leLex, if_pos rfl] at hab
            simpa [leLex, hxz] using hbc
        · by_cases hyz : y = z
          · subst hyz
            simpa [leLex, hxy] using hab
          · simp only [leLex, if_neg hxy, if_neg hyz, decide_eq_true_eq] at hab hbc
            have hxz : x < z := lt_trans hab hbc
            have hne : ¬ x = z := fun he => absurd (he ▸ hxz) (lt_irrefl z)
            simp [leLex, hne, hxz]

instance : IsTotal (List Char) relLex := ⟨leLex_total⟩

instance : IsTrans (List Char) relLex := ⟨fun a b c => leLex_trans a b c⟩

/-- A dataset whose category column holds `"A"` and `" A"`: equal after
trimming, distinct before. -/
def dfCategoriasRepetidas : DataFrame :=
  ⟨[lc "Categoria"], [[Celda.texto (lc "A")], [Celda.texto (lc " A")]]⟩

/-- Counterexample to C8 as stated: two cells that are equal after
trimming (`"A"` and `" A"`) produce TWO list entries and a count of 2,
because the source deduplicates with `unique()` before stripping; the
distinct trimmed values number exactly one. -/
theorem claim_C8_counterexample :
    obtener_todas_las_categorias (some dfCategoriasRepetidas) =
      lc "📋 **TODAS LAS CATEGORÍAS DISPONIBLES:**\n\n1. A\n2. A\n\n**Total de categorías: 2**" ∧
    (((columna dfCategoriasRepetidas (lc "Categoria")).map
      (fun c => pyStrip (strCelda c))).dedup).length = 1 := by
  refine ⟨by decide, by decide⟩

/-- Claim C8 as amended: when the category column resolves, the
aggregation returns the numbered, lexicographically sorted list of the
trimmed forms of the DISTINCT RAW cell values (non-empty, not `nan`),
followed by their count -- distinctness is computed before trimming, so
cells differing only in surrounding whitespace contribute duplicate
entries; when the column is absent it returns the explicit not-found
message. -/
theorem claim_C8_categorias (df : DataFrame) :
    (∀ col, buscarConBreak (coincideCol columnas_categoria) df.cols = some col →
      obtener_todas_las_categorias (some df) =
        lc "📋 **TODAS LAS CATEGORÍAS DISPONIBLES:**\n\n" ++
          renderNumerada 1 (List.insertionSort relLex (listaCategorias df col)) ++
          lc "\n**Total de categorías: " ++
          digitosNat (listaCategorias df col).length ++ lc "**" ∧
      (List.insertionSort relLex (listaCategorias df col)).Sorted relLex ∧
      (List.insertionSort relLex (listaCategorias df col)).Perm (listaCategorias df col) ∧
      listaCategorias df col =
        ((unicos ((columna df col).filter (fun c => decide (c ≠ Celda.na)))).filter
          filtroCategoria).map (fun c => pyStrip (strCelda c))) ∧
    (buscarConBreak (coincideCol columnas_categoria) df.cols = none →
      obtener_todas_las_categorias (some df) =
        lc "No se encontró columna de categoría en el inventario") := by
  refine ⟨fun col h => ⟨?_, ?_, ?_, rfl⟩,
    fun h => by simp [obtener_todas_las_categorias, h]⟩
  · simp [obtener_todas_las_categorias, h]
  · exact List.sorted_insertionSort relLex _
  · exact List.perm_insertionSort relLex _

/-- Witness for C8 at the concrete dataset with a resolving column. -/
theorem claim_C8_witness :
    buscarConBreak (coincideCol columnas_categoria) dfCategoriasRepetidas.cols =
      some (lc "Categoria") ∧
    (List.insertionSort relLex
      (listaCategorias dfCategoriasRepetidas (lc "Categoria"))).Sorted relLex ∧
    obtener_todas_las_categorias (some dfCategoriasRepetidas) =
      lc "📋 **TODAS LAS CATEGORÍAS DISPONIBLES:**\n\n" ++
        renderNumerada 1 (List.insertionSort relLex
          (listaCategorias dfCategoriasRepetidas (lc "Categoria"))) ++
        lc "\n**Total de categorías: " ++
        digitosNat (listaCategorias dfCategoriasRepetidas (lc "Categoria")).length ++
        lc "**" :=
  ⟨by decide,
   ((claim_C8_categorias dfCategoriasRepetidas).1 (lc "Categoria") (by decide)).2.1,
   ((claim_C8_categorias dfCategoriasRepetidas).1 (lc "Categoria") (by decide)).1⟩

/-! ### Claim C3: segmenter round-trip -/

theorem longitud_dropWhile_le (p : Char → Bool) :
    ∀ l : List Char, (l.dropWhile p).length ≤ l.length := by
  intro l
  induction l with
  | nil => simp
  | cons c t ih =>
    rw [List.dropWhile_cons]
    by_cases hc : p c = true
    · rw [if_pos hc]; exact Nat.le_trans ih (by simp)
    · rw [if_neg hc]

theorem dropWhile_eq_self_de_longitud (p : Char → Bool) :
    ∀ l : List Char, (l.dropWhile p).length = l.length → l.dropWhile p = l := by
  intro l
  induction l with
  | nil => intro _; rfl
  | cons c t _ =>
    intro h
    rw [List.dropWhile_cons] at h ⊢
    by_cases hc : p c = true
    · rw [if_pos hc] at h
      have := longitud_dropWhile_le p t
      simp at h; omega
    · rw [if_neg hc]

theorem pyStrip_longitud_le (s : List Char) : (pyStrip s).length ≤ s.length := by
  unfold pyStrip
  calc ((s.dropWhile esEspacio).reverse.dropWhile esEspacio).reverse.length
      = ((s.dropWhile esEspacio).reverse.dropWhile esEspacio).length := by
        rw [List.length_reverse]
    _ ≤ (s.dropWhile esEspacio).reverse.length := longitud_dropWhile_le _ _
    _ = (s.dropWhile esEspacio).length := by rw [List.length_reverse]
    _ ≤ s.length := longitud_dropWhile_le _ _

theorem pyStrip_self_bordes {s : List Char} (h : pyStrip s = s) :
    s.dropWhile esEspacio = s ∧ s.reverse.dropWhile esEspacio = s.reverse := by
  have h1 := longitud_dropWhile_le esEspacio s
  have h2 := longitud_dropWhile_le esEspacio (s.dropWhile esEspacio).reverse
  have hlen : (pyStrip s).length = s.length := by rw [h]
  unfold pyStrip at hlen
  rw [List.length_reverse] at hlen
  rw [List.length_reverse] at h2
  have ha : (s.dropWhile esEspacio).length = s.length := by omega
  have hb := dropWhile_eq_self_de_longitud esEspacio s ha
  refine ⟨hb, ?_⟩
  rw [hb] at hlen
  have hr : s.reverse.length = s.length := List.length_reverse s
  exact dropWhile_eq_self_de_longitud esEspacio s.reverse (by omega)

theorem cabeza_no_espacio {l : List Char} (hne : l ≠ [])
    (hd : l.dropWhile esEspacio = l) : ∃ c t, l = c :: t ∧ esEspacio c = false := by
  cases l with
  | nil => exact absurd rfl hne
  | cons c t =>
    refine ⟨c, t, rfl, ?_⟩
    by_cases hc : esEspacio c = true
    · rw [List.dropWhile_cons, if_pos hc] at hd
      have := longitud_dropWhile_le esEspacio t
      have h2 : (t.dropWhile esEspacio).length = t.length + 1 := by rw [hd]; simp
      omega
    · simpa using hc

theorem separarLineas_ne_nil : ∀ s : List Char, separarLineas s ≠ [] := by
  intro s
  cases s with
  | nil => simp [separarLineas]
  | cons c rest =>
    rw [separarLineas]
    by_cases hc : c = '\n'
    · rw [if_pos hc]; simp
    · rw [if_neg hc]
      cases h : separarLineas rest <;> simp

theorem unirLineas_separarLineas : ∀ s : List Char, unirLineas (separarLineas s) = s := by
  intro s
  induction s with
  | nil => rfl
  | cons c rest ih =>
    rw [separarLineas]
    by_cases hc : c = '\n'
    · rw [if_pos hc]
      cases h : separarLineas rest with
      | nil => exact absurd h (separarLineas_ne_nil rest)
      | cons x xs =>
        rw [h] at ih
        rw [unirLineas, hc]
        simpa using ih
    · rw [if_neg hc]
      cases h : separarLineas rest with
      | nil => exact absurd h (separarLineas_ne_nil rest)
      | cons x xs =>
        rw [h] at ih
        cases xs with
        | nil =>
          rw [unirLineas] at ih ⊢
          rw [ih]
        | cons y ys =>
          rw [unirLineas] at ih ⊢
          rw [List.cons_append, ih]

theorem unirLineas_append : ∀ (xs ys : List (List Char)), xs ≠ [] → ys ≠ [] →
    unirLineas (xs ++ ys) = unirLineas xs ++ '\n' :: unirLineas ys := by
  intro xs
  induction xs with
  | nil => intro ys h _; exact absurd rfl h
  | cons x xs ih =>
    intro ys _ hys
    cases xs with
    | nil =>
      cases ys with
      | nil => exact absurd rfl hys
      | cons y ys' => simp [unirLineas]
    | cons x' xs' =>
      have hrec := ih ys (by simp) hys
      have h1 : unirLineas ((x :: x' :: xs') ++ ys) =
          x ++ '\n' :: unirLineas ((x' :: xs') ++ ys) := by
        rw [List.cons_append]
        cases h2 : (x' :: xs') ++ ys with
        | nil => simp at h2
        | cons z zs => rfl
      rw [h1, hrec]
      show x ++ '\n' :: (unirLineas (x' :: xs') ++ '\n' :: unirLineas ys) =
        (x ++ '\n' :: unirLineas (x' :: xs')) ++ '\n' :: unirLineas ys
      simp

theorem unirLineas_cabeza : ∀ (l : List Char) (rest : List (List Char)),
    ∃ resto, unirLineas (l :: rest) = l ++ resto := by
  intro l rest
  cases rest with
  | nil => exact ⟨[], by simp [unirLineas]⟩
  | cons y ys => exact ⟨'\n' :: unirLineas (y :: ys), rfl⟩

theorem unirLineas_cola : ∀ (block : List (List Char)) (hb : block ≠ []),
    ∃ resto, (unirLineas block).reverse = (block.getLast hb).reverse ++ resto := by
  intro block
  induction block with
  | nil => intro h; exact absurd rfl h
  | cons x xs ih =>
    intro _
    cases xs with
    | nil => exact ⟨[], by simp [unirLineas]⟩
    | cons y ys =>
      obtain ⟨resto, hres⟩ := ih (by simp)
      refine ⟨resto ++ '\n' :: x.reverse, ?_⟩
      rw [unirLineas, List.getLast_cons (by simp : (y :: ys) ≠ [])]
      rw [List.reverse_append, List.reverse_cons, hres]
      simp [List.append_assoc]

/-- Building block of the accumulated `parte_actual`: each consumed line
followed by its newline. -/
def glueNL (ls : List (List Char)) : List Char :=
  ls.foldr (fun l acc => l ++ '\n' :: acc) []

theorem glueNL_append_singleton (block : List (List Char)) (l : List Char) :
    glueNL (block ++ [l]) = glueNL block ++ (l ++ ['\n']) := by
  induction block with
  | nil => rfl
  | cons x xs ih =>
    show x ++ '\n' :: glueNL (xs ++ [l]) = (x ++ '\n' :: glueNL xs) ++ (l ++ ['\n'])
    rw [ih]
    simp

theorem glueNL_ne_nil {block : List (List Char)} (hb : block ≠ []) : glueNL block ≠ [] := by
  cases block with
  | nil => exact absurd rfl hb
  | cons l rest =>
    show l ++ '\n' :: glueNL rest ≠ []
    cases l <;> simp

theorem glueNL_eq_unir {block : List (List Char)} (hb : block ≠ []) :
    glueNL block = unirLineas block ++ ['\n'] := by
  induction block with
  | nil => exact absurd rfl hb
  | cons x xs ih =>
    cases xs with
    | nil => simp [glueNL, unirLineas]
    | cons y ys =>
      show x ++ '\n' :: glueNL (y :: ys) = unirLineas (x :: y :: ys) ++ ['\n']
      rw [ih (by simp), unirLineas]
      simp

theorem pyStrip_glueNL {block : List (List Char)} (hb : block ≠ [])
    (hn : ∀ l ∈ block, l ≠ [] ∧ pyStrip l = l) :
    pyStrip (glueNL block) = unirLineas block := by
  rw [glueNL_eq_unir hb]
  obtain ⟨l1, rest, rfl⟩ : ∃ l1 rest, block = l1 :: rest := by
    cases block with
    | nil => exact absurd rfl hb
    | cons a b => exact ⟨a, b, rfl⟩
  obtain ⟨hne1, hs1⟩ := hn l1 (by simp)
  obtain ⟨c, t, hct, hc⟩ := cabeza_no_espacio hne1 (pyStrip_self_bordes hs1).1
  obtain ⟨resto1, hres1⟩ := unirLineas_cabeza l1 rest
  have hlast := hn ((l1 :: rest).getLast (by simp)) (List.getLast_mem (by simp))
  obtain ⟨d, td, hdt, hdn⟩ := cabeza_no_espacio
    (by rw [ne_eq, List.reverse_eq_nil_iff]; exact hlast.1)
    (pyStrip_self_bordes hlast.2).2
  obtain ⟨resto2, hres2⟩ := unirLineas_cola (l1 :: rest) (by simp)
  set J := unirLineas (l1 :: rest) with hJ
  obtain ⟨tJ, hJh⟩ : ∃ tJ, J = c :: tJ := ⟨t ++ resto1, by rw [hres1, hct]; rfl⟩
  have hJrev : J.reverse = d :: (td ++ resto2) := by
    rw [hres2, hdt, List.cons_append]
  have hA : (J ++ ['\n']).dropWhile esEspacio = J ++ ['\n'] := by
    rw [hJh, List.cons_append, List.dropWhile_cons, if_neg (by simp [hc])]
  have hB : (J ++ ['\n']).reverse = '\n' :: J.reverse := by
    rw [List.reverse_append]; rfl
  have hC : ('\n' :: J.reverse).dropWhile esEspacio = J.reverse.dropWhile esEspacio := by
    rw [List.dropWhile_cons, if_pos (by decide)]
  have hD : J.reverse.dropWhile esEspacio = J.reverse := by
    rw [hJrev, List.dropWhile_cons, if_neg (by simp [hdn])]
  unfold pyStrip
  rw [hA, hB, hC, hD, List.reverse_reverse]

/-- A normalized line for the amended round-trip statement: non-blank, no
surrounding whitespace, and strictly shorter than the limit. -/
def lineaNorm (limite : Nat) (l : List Char) : Prop :=
  l ≠ [] ∧ pyStrip l = l ∧ l.length + 1 ≤ limite

instance (limite : Nat) (l : List Char) : Decidable (lineaNorm limite l) :=
  inferInstanceAs (Decidable (_ ∧ _ ∧ _))

theorem dividirPalabras_acc (limite : Nat) :
    ∀ (palabras partes : List (List Char)) (lt : List Char),
      dividirPalabras limite palabras partes lt =
        (partes ++ (dividirPalabras limite palabras [] lt).1,
         (dividirPalabras limite palabras [] lt).2) := by
  intro palabras
  induction palabras with
  | nil => intro partes lt; simp [dividirPalabras]
  | cons p rest ih =>
    intro partes lt
    simp only [dividirPalabras, List.nil_append]
    by_cases h1 : limite < (lt ++ p ++ [' ']).length
    · simp only [if_pos h1]
      by_cases h2 : lt ≠ []
      · simp only [if_pos h2]
        rw [ih (partes ++ [pyStrip lt]), ih [pyStrip lt]]
        simp
      · simp only [if_neg h2]
        rw [ih (partes ++ [List.take limite p]), ih [List.take limite p]]
        simp
    · simp only [if_neg h1]
      rw [ih partes]

theorem dividirPalabras_acc1 (limite : Nat) (palabras partes : List (List Char))
    (lt : List Char) :
    (dividirPalabras limite palabras partes lt).1 =
      partes ++ (dividirPalabras limite palabras [] lt).1 := by
  rw [dividirPalabras_acc]

theorem dividirPalabras_acc2 (limite : Nat) (palabras partes : List (List Char))
    (lt : List Char) :
    (dividirPalabras limite palabras partes lt).2 =
      (dividirPalabras limite palabras [] lt).2 := by
  rw [dividirPalabras_acc]

theorem dividirLineas_acc (limite : Nat) :
    ∀ (lineas partes : List (List Char)) (pa : List Char),
      dividirLineas limite lineas partes pa =
        partes ++ dividirLineas limite lineas [] pa := by
  intro lineas
  induction lineas with
  | nil =>
    intro partes pa
    simp only [dividirLineas]
    by_cases h : pyStrip pa ≠ []
    · simp only [if_pos h]; simp
    · simp only [if_neg h]; simp
  | cons linea rest ih =>
    intro partes pa
    simp only [dividirLineas, List.nil_append]
    by_cases h1 : limite < (pa ++ linea ++ ['\n']).length
    · simp only [if_pos h1]
      by_cases h2 : pa ≠ []
      · simp only [if_pos h2]
        rw [ih (partes ++ [pyStrip pa]), ih [pyStrip pa]]
        simp
      · simp only [if_neg h2]
        rw [dividirPalabras_acc1 limite (separarPalabras linea) partes [],
          dividirPalabras_acc2 limite (separarPalabras linea) partes []]
        rw [ih (partes ++ (dividirPalabras limite (separarPalabras linea) [] []).1)]
        conv_rhs =>
          rw [ih (dividirPalabras limite (separarPalabras linea) [] []).1]
        simp
    · simp only [if_neg h1]
      rw [ih partes]

theorem dividirLineas_principal (limite : Nat) :
    ∀ (lineas block : List (List Char)),
      (∀ l ∈ lineas, lineaNorm limite l) →
      (∀ l ∈ block, lineaNorm limite l) →
      (glueNL block).length ≤ limite →
      (unirLineas (dividirLineas limite lineas [] (glueNL block)) =
        unirLineas (block ++ lineas)) ∧
      ((block ≠ [] ∨ lineas ≠ []) → dividirLineas limite lineas [] (glueNL block) ≠ []) ∧
      (∀ p ∈ dividirLineas limite lineas [] (glueNL block), p.length ≤ limite) := by
  intro lineas
  induction lineas with
  | nil =>
    intro block _ hb _
    by_cases hbe : block = []
    · subst hbe
      refine ⟨rfl, fun h => by simp at h, ?_⟩
      intro p hp
      simp [dividirLineas, glueNL, pyStrip] at hp
    · have hstrip : pyStrip (glueNL block) = unirLineas block :=
        pyStrip_glueNL hbe (fun l hl => ⟨(hb l hl).1, (hb l hl).2.1⟩)
      have hne : unirLineas block ≠ [] := by
        obtain ⟨l1, rest2, rfl⟩ : ∃ a b, block = a :: b := by
          cases block with
          | nil => exact absurd rfl hbe
          | cons a b => exact ⟨a, b, rfl⟩
        obtain ⟨resto, hres⟩ := unirLineas_cabeza l1 rest2
        rw [hres]
        have h1 := (hb l1 (by simp)).1
        intro hcontra
        rcases List.append_eq_nil.mp hcontra with ⟨h2, -⟩
        exact h1 h2
      simp only [dividirLineas]
      rw [hstrip, if_pos hne]
      refine ⟨?_, fun _ => by simp, ?_⟩
      · rw [List.append_nil]
        rfl
      · intro p hp
        rw [List.nil_append, List.mem_singleton] at hp
        subst hp
        have h3 := pyStrip_longitud_le (glueNL block)
        rw [hstrip] at h3
        omega
  | cons linea rest ih =>
    intro block hl hb hlen
    have hnl := hl linea (by simp)
    have hrest : ∀ l ∈ rest, lineaNorm limite l := fun l h => hl l (by simp [h])
    simp only [dividirLineas]
    by_cases h1 : limite < (glueNL block ++ linea ++ ['\n']).length
    · rw [if_pos h1]
      have hbne : block ≠ [] := by
        intro hbe; subst hbe
        have hlen1 : ((glueNL ([] : List (List Char))) ++ linea ++ ['\n']).length =
            linea.length + 1 := by
          simp [glueNL]
        rw [hlen1] at h1
        have := hnl.2.2
        omega
      have hpane : glueNL block ≠ [] := glueNL_ne_nil hbne
      rw [if_pos hpane]
      rw [List.nil_append]
      rw [dividirLineas_acc limite rest [pyStrip (glueNL block)]]
      have hstrip : pyStrip (glueNL block) = unirLineas block :=
        pyStrip_glueNL hbne (fun l hl2 => ⟨(hb l hl2).1, (hb l hl2).2.1⟩)
      have hglue1 : linea ++ ['\n'] = glueNL [linea] := by simp [glueNL]
      rw [hglue1]
      have hb1 : ∀ l ∈ [linea], lineaNorm limite l := by
        intro l h
        rw [List.mem_singleton] at h
        subst h; exact hnl
      have hlen1 : (glueNL [linea]).length ≤ limite := by
        have h2 : (glueNL [linea]).length = linea.length + 1 := by simp [glueNL]
        have := hnl.2.2
        omega
      obtain ⟨ha, hne2, hc⟩ := ih [linea] hrest hb1 hlen1
      have hDne : dividirLineas limite rest [] (glueNL [linea]) ≠ [] :=
        hne2 (Or.inl (by simp))
      refine ⟨?_, fun _ => by simp, ?_⟩
      · rw [hstrip]
        rw [show [unirLineas block] ++ dividirLineas limite rest [] (glueNL [linea]) =
            [unirLineas block] ++ dividirLineas limite rest [] (glueNL [linea]) from rfl]
        rw [unirLineas_append [unirLineas block] _ (by simp) hDne]
        rw [ha]
        have hbne2 : unirLineas block ≠ [] := by
          obtain ⟨l1, rest2, rfl⟩ : ∃ a b, block = a :: b := by
            cases block with
            | nil => exact absurd rfl hbne
            | cons a b => exact ⟨a, b, rfl⟩
          obtain ⟨resto, hres⟩ := unirLineas_cabeza l1 rest2
          rw [hres]
          have hx := (hb l1 (by simp)).1
          intro hcontra
          rcases List.append_eq_nil.mp hcontra with ⟨h2, -⟩
          exact hx h2
        rw [unirLineas_append block (linea :: rest) hbne (by simp)]
        rfl
      · intro p hp
        rcases List.mem_append.mp hp with h | h
        · rw [List.mem_singleton] at h
          subst h
          have h3 := pyStrip_longitud_le (glueNL block)
          omega
        · exact hc p h
    · rw [if_neg h1]
      have hglue : glueNL block ++ linea ++ ['\n'] = glueNL (block ++ [linea]) := by
        rw [glueNL_append_singleton, List.append_assoc]
      rw [hglue]
      have hb' : ∀ l ∈ block ++ [linea], lineaNorm limite l := by
        intro l hmem
        rcases List.mem_append.mp hmem with h | h
        · exact hb l h
        · rw [List.mem_singleton] at h
          subst h; exact hnl
      have hlen' : (glueNL (block ++ [linea])).length ≤ limite := by
        rw [← hglue]
        exact Nat.le_of_not_lt h1
      obtain ⟨ha, hbne, hc⟩ := ih (block ++ [linea]) hrest hb' hlen'
      refine ⟨?_, fun _ => hbne (Or.inl (by simp)), hc⟩
      rw [ha, List.append_assoc]
      rfl

/-- Counterexample to C3 as stated: splitting `"aa\nbb"` with limit 3
produces the chunks `"aa"` and `"bb"` (no label is injected by the
splitter), whose concatenation `"aabb"` is NOT the original string -- the
newline dropped by `strip()` at the chunk boundary is lost; moreover the
per-chunk size bound also fails in general: `"z\naa bb cc"` with limit 5
produces a chunk of length 8, because the word-splitting branch is only
reachable when the accumulated chunk is empty. -/
theorem claim_C3_counterexample :
    dividir_mensaje (lc "aa\nbb") 3 = [lc "aa", lc "bb"] ∧
    (dividir_mensaje (lc "aa\nbb") 3).flatten ≠ lc "aa\nbb" ∧
    (dividir_mensaje (lc "z\naa bb cc") 5).any (fun p => decide (5 < p.length)) = true := by
  refine ⟨by decide, by decide, by decide⟩

/-- Claim C3 as amended: for an answer with no record marker whose lines
are all non-blank, free of surrounding whitespace, and strictly shorter
than the limit, the chunks re-joined with single newlines reproduce the
answer exactly and every chunk is within the limit.  (Exact character
concatenation fails in general because each chunk is `strip()`ed, and the
length bound fails for overlong lines reached with a non-empty
accumulator, hence the normalization hypotheses.) -/
theorem claim_C3_segmentador (mensaje : List Char) (limite : Nat)
    (hprod : contiene mensaje (lc "PRODUCTO ") = false)
    (hnorm : ∀ l ∈ separarLineas mensaje, lineaNorm limite l) :
    unirLineas (dividir_mensaje mensaje limite) = mensaje ∧
    ∀ p ∈ dividir_mensaje mensaje limite, p.length ≤ limite := by
  have hd : dividir_mensaje mensaje limite =
      dividirLineas limite (separarLineas mensaje) [] [] := by
    simp [dividir_mensaje, hprod]
  have hg : glueNL [] = ([] : List Char) := rfl
  have hmain := dividirLineas_principal limite (separarLineas mensaje) []
    hnorm (by simp) (by rw [hg]; simp)
  rw [hg] at hmain
  rw [hd]
  refine ⟨?_, hmain.2.2⟩
  have h1 := hmain.1
  rw [List.nil_append] at h1
  rw [h1, unirLineas_separarLineas]

/-- Witness for C3 at a concrete normalized two-line message. -/
theorem claim_C3_witness :
    contiene (lc "aa\nbb") (lc "PRODUCTO ") = false ∧
    (∀ l ∈ separarLineas (lc "aa\nbb"), lineaNorm 4 l) ∧
    (unirLineas (dividir_mensaje (lc "aa\nbb") 4) = lc "aa\nbb" ∧
     ∀ p ∈ dividir_mensaje (lc "aa\nbb") 4, p.length ≤ 4) :=
  ⟨by decide, by decide,
   claim_C3_segmentador (lc "aa\nbb") 4 (by decide) (by decide)⟩

end Webhook
